import Mathlib

/-!
Verification of the CatanBench LLM-benchmark core against its specification.

This file shallowly embeds the hand-written logic of the repository:

* `src/core/action_parser.py` — the Action Describer (`describe_actions`,
  `_create_axial_description`, `_format_maritime_trade`, ...);
* `src/core/llm_player.py` — the Decision Agent (`decide`,
  `_query_llm_with_retry`, `_parse_llm_response`, `clean_json`,
  `_fallback_action`, `_update_stats`);
* `src/core/game_state.py` — the State Serializer (`_extract_player_state`,
  `_extract_opponents_state`, `extract_state`);
* `src/core/axial_mapper.py` — the Coordinate/Adjacency Mapper
  (`register_tiles`, `_generate_intersections`, `_generate_edges`);
* `src/tournament/manager.py` — result aggregation
  (`_analyze_tournament_results`, `_calculate_player_statistics`);
* `src/competition_tournament.py` — `calculate_elo_ratings`.

Python dynamic values are modelled by the inductive `PyValue`; Python
exceptions by `Except PyErr`; Python floats used for win counts by `ℚ`
and ELO ratings by `ℝ` (the ELO update involves `10 ** x` for irrational
`x`, which has no exact rational model).  External collaborators
(the `catanatron` rules engine, `json.loads`, the LLM HTTP clients) are
modelled as abstract parameters or by their documented value shapes.
-/

namespace CatanBench

/-! ## Python value model -/

/-- Kinds of Python exceptions that the embedded code can raise or catch.
`_parse_llm_response` distinguishes `json.JSONDecodeError`, `ValueError`
and `TypeError` (caught by its outer handler) from everything else. -/
inductive PyErrKind
  | jsonDecode
  | valueError
  | typeError
  | attributeError
  | runtimeError
  | keyError
  | genericError
  deriving DecidableEq, Repr

/-- A Python exception: a kind plus a message. -/
structure PyErr where
  kind : PyErrKind
  msg : String
  deriving DecidableEq, Repr

/-- Dynamic Python values as they appear in `Action.value` fields:
integers, strings, tuples/lists, and `None`. -/
inductive PyValue
  | int (n : Int)
  | str (s : String)
  | tup (xs : List PyValue)
  | none
  deriving Repr

mutual

/-- Python `repr` of a `PyValue` (element rendering inside tuples). -/
def pyReprV : PyValue → String
  | .int n => toString n
  | .str s => "'" ++ s ++ "'"
  | .none => "None"
  | .tup xs =>
      if xs.length = 1 then "(" ++ String.intercalate ", " (pyReprList xs) ++ ",)"
      else "(" ++ String.intercalate ", " (pyReprList xs) ++ ")"

/-- Embedding of `repr` mapped over a list of values. -/
def pyReprList : List PyValue → List String
  | [] => []
  | x :: xs => pyReprV x :: pyReprList xs

end

/-- Python `str()` of a `PyValue` (used by f-string interpolation):
identical to `repr` except on top-level strings. -/
def pyStr : PyValue → String
  | .str s => s
  | v => pyReprV v

/-! ## `catanatron.models.enums` (external collaborator, value shapes only) -/

/-- Embedding of `catanatron.models.enums.ActionType` members, with their Python
`.name` strings given by `actionTypeName`. -/
inductive ActionType
  | ROLL
  | MOVE_ROBBER
  | DISCARD
  | BUY_DEVELOPMENT_CARD
  | PLAY_KNIGHT_CARD
  | PLAY_YEAR_OF_PLENTY
  | PLAY_MONOPOLY
  | PLAY_ROAD_BUILDING
  | MARITIME_TRADE
  | OFFER_TRADE
  | ACCEPT_TRADE
  | REJECT_TRADE
  | CONFIRM_TRADE
  | CANCEL_TRADE
  | BUILD_ROAD
  | BUILD_SETTLEMENT
  | BUILD_CITY
  | END_TURN
  deriving DecidableEq, Repr

/-- The Python `.name` attribute of each `ActionType` member. -/
def actionTypeName : ActionType → String
  | .ROLL => "ROLL"
  | .MOVE_ROBBER => "MOVE_ROBBER"
  | .DISCARD => "DISCARD"
  | .BUY_DEVELOPMENT_CARD => "BUY_DEVELOPMENT_CARD"
  | .PLAY_KNIGHT_CARD => "PLAY_KNIGHT_CARD"
  | .PLAY_YEAR_OF_PLENTY => "PLAY_YEAR_OF_PLENTY"
  | .PLAY_MONOPOLY => "PLAY_MONOPOLY"
  | .PLAY_ROAD_BUILDING => "PLAY_ROAD_BUILDING"
  | .MARITIME_TRADE => "MARITIME_TRADE"
  | .OFFER_TRADE => "OFFER_TRADE"
  | .ACCEPT_TRADE => "ACCEPT_TRADE"
  | .REJECT_TRADE => "REJECT_TRADE"
  | .CONFIRM_TRADE => "CONFIRM_TRADE"
  | .CANCEL_TRADE => "CANCEL_TRADE"
  | .BUILD_ROAD => "BUILD_ROAD"
  | .BUILD_SETTLEMENT => "BUILD_SETTLEMENT"
  | .BUILD_CITY => "BUILD_CITY"
  | .END_TURN => "END_TURN"

/-- A `catanatron` `Action`: a move type plus its raw (dynamic) value. -/
structure Action where
  actionType : ActionType
  value : PyValue
  deriving Repr

/-- Embedding of `catanatron.models.enums.RESOURCES`, in the order documented in
`_format_maritime_trade` (wood, brick, sheep, wheat, ore). -/
def RESOURCES : List String := ["WOOD", "BRICK", "SHEEP", "WHEAT", "ORE"]

/-! ## Python string helpers used by the parser code -/

/-- Python `str.replace(a, b)` for single characters (used as
`action_type.name.replace(UNDERSCORE, SPACE)`). -/
def pyReplaceChar (a b : Char) (s : String) : String :=
  String.mk (s.data.map (fun c => if c = a then b else c))

/-- Worker for Python `str.title()`: uppercase a letter that follows a
non-letter, lowercase any other letter, leave other characters alone.
The flag records whether the previous character was a letter. -/
def titleCaseAux : Bool → List Char → List Char
  | _, [] => []
  | prevAlpha, c :: cs =>
      if c.isAlpha then
        (if prevAlpha then c.toLower else c.toUpper) :: titleCaseAux true cs
      else
        c :: titleCaseAux false cs

/-- Python `str.title()`. -/
def titleCase (s : String) : String := String.mk (titleCaseAux false s.data)

/-- Whether `needle` occurs as a contiguous sublist of `hay`
(used to model both Python `in` on strings and the informal
"the description contains ..." of the specification). -/
def hasInfix (hay needle : List Char) : Bool :=
  match hay with
  | [] => needle.isEmpty
  | _ :: t => needle.isPrefixOf hay || hasInfix t needle

/-- Proposition form of string containment: `t` occurs inside `s`. -/
def containsStr (s t : String) : Prop := hasInfix s.data t.data = true

instance (s t : String) : Decidable (containsStr s t) := by
  unfold containsStr
  infer_instance

/-! ## Coordinate/Adjacency Mapper state (`src/core/axial_mapper.py`) -/

/-- Embedding of `IntersectionInfo` from `axial_mapper.py`. -/
structure IntersectionInfo where
  id : String
  tiles : List (Int × Int)
  tileNames : List String
  adjacentIntersections : List String
  connectedEdges : List String
  deriving DecidableEq, Repr

/-- Embedding of `EdgeInfo` from `axial_mapper.py`. -/
structure EdgeInfo where
  id : String
  tiles : List (Int × Int)
  tileNames : List String
  intersections : List String
  name : String
  deriving DecidableEq, Repr

/-- Embedding of `TileInfo` from `axial_mapper.py`. -/
structure TileInfo where
  coord : Int × Int
  resource : Option String
  number : Option Int
  name : String
  neighbors : List (Int × Int)
  intersections : List String
  edges : List String
  deriving DecidableEq, Repr

/-- The mutable state of `HexAxialMapper`.  Python dicts are modelled as
insertion-ordered association lists. -/
structure HexAxialMapper where
  tiles : List ((Int × Int) × TileInfo)
  intersections : List (String × IntersectionInfo)
  edges : List (String × EdgeInfo)
  portIntersections : List (String × List String)
  actionMappings : List (Nat × String)
  deriving Repr

/-- Embedding of `HexAxialMapper.cube_to_axial`: `(x, y, z) ↦ (q, r) = (x, z)`. -/
def cubeToAxial (cube : Int × Int × Int) : Int × Int := (cube.1, cube.2.2)

/-- Embedding of `HexAxialMapper.axial_to_cube`: `(q, r) ↦ (q, -q - r, r)`. -/
def axialToCube (axial : Int × Int) : Int × Int × Int :=
  (axial.1, -axial.1 - axial.2, axial.2)

/-- Embedding of `HexAxialMapper.get_intersection_description`. -/
def getIntersectionDescription (m : HexAxialMapper) (iid : String) : String :=
  match m.intersections.lookup iid with
  | Option.none => "Unknown intersection " ++ iid
  | some info =>
      let actualTiles := info.tileNames.filter
        (fun n => !(("[".data).isPrefixOf n.data || hasInfix n.data ("(Port Edge)".data)))
      let baseDesc :=
        match actualTiles with
        | [t1, t2, t3] => iid ++ ": Corner of " ++ t1 ++ ", " ++ t2 ++ ", " ++ t3
        | [t1, t2] => iid ++ ": Edge corner of " ++ t1 ++ " and " ++ t2
        | [t1] => iid ++ ": Edge of " ++ t1
        | ts => iid ++ ": " ++ String.intercalate "/" ts
      match m.portIntersections.lookup iid with
      | some portInfo =>
          if portInfo.isEmpty then baseDesc
          else baseDesc ++ " - Provides access to " ++ String.intercalate ", " portInfo
      | Option.none => baseDesc

/-- Embedding of `HexAxialMapper.get_edge_description`. -/
def getEdgeDescription (m : HexAxialMapper) (eid : String) : String :=
  match m.edges.lookup eid with
  | Option.none => "Unknown edge " ++ eid
  | some info =>
      match info.tileNames with
      | t1 :: t2 :: _ => eid ++ ": Road between " ++ t1 ++ " and " ++ t2
      | _ => eid ++ ": Road between  and "

/-! ## Action Describer (`src/core/action_parser.py`) -/

/-- Python truthiness of an optional string (`if intersection_desc:`):
`None` and the empty string are falsy. -/
def optTruthy : Option String → Option String
  | some d => if d = "" then Option.none else some d
  | Option.none => Option.none

/-- Embedding of `ActionParser._get_intersection_for_action`: resolve an action index
to an intersection description, assuming `action index = node id`. -/
def getIntersectionForAction (m : HexAxialMapper) (actionIndex : Nat) : Option String :=
  let iid := "I" ++ toString actionIndex
  if (m.intersections.lookup iid).isSome then
    some (getIntersectionDescription m iid)
  else
    match m.portIntersections.lookup iid with
    | some portInfo =>
        some (iid ++ ": Port settlement spot - Provides access to " ++
          String.intercalate ", " portInfo)
    | Option.none =>
        some (iid ++ ": Settlement spot (node " ++ toString actionIndex ++ ")")

/-- Embedding of `ActionParser._get_edge_for_action`: the `action_index`-th key of the
edge dict, if in range. -/
def getEdgeForAction (m : HexAxialMapper) (actionIndex : Nat) : Option String :=
  if actionIndex < m.edges.length then
    match (m.edges.map Prod.fst).get? actionIndex with
    | some eid => some (getEdgeDescription m eid)
    | Option.none => Option.none
  else Option.none

/-- Robber-move helper: the first three tuple elements are treated as a
cube coordinate and converted with `cube_to_axial`; the lookup in
`self.hex_mapper.tiles` succeeds only for an integer coordinate pair. -/
def robberAxialLookup (m : HexAxialMapper) (v0 v2 : PyValue) : Option TileInfo :=
  match v0, v2 with
  | .int q, .int r => (m.tiles.lookup (q, r)).map id
  | _, _ => Option.none

/-- Python `str()` of the axial pair `(value[0], value[2])` produced by
`cube_to_axial` on raw tuple elements. -/
def robberAxialStr (v0 v2 : PyValue) : String :=
  "(" ++ pyReprV v0 ++ ", " ++ pyReprV v2 ++ ")"

/-- Embedding of `ActionParser._create_axial_description`.  Every operation in the
Python body is total on well-typed `Action` values, so the surrounding
`try/except` fallback branch is unreachable in this embedding. -/
def createAxialDescription (m : HexAxialMapper) (action : Action) (actionIndex : Nat) : String :=
  match action.actionType with
  | .BUILD_SETTLEMENT =>
      match optTruthy (getIntersectionForAction m actionIndex) with
      | some d => "Build settlement at " ++ d
      | Option.none =>
          "Build settlement at intersection " ++ toString actionIndex ++
            " (node " ++ pyStr action.value ++ ")"
  | .BUILD_ROAD =>
      match optTruthy (getEdgeForAction m actionIndex) with
      | some d => "Build road: " ++ d
      | Option.none =>
          "Build road at edge " ++ toString actionIndex ++
            " (edge " ++ pyStr action.value ++ ")"
  | .BUILD_CITY =>
      match optTruthy (getIntersectionForAction m actionIndex) with
      | some d => "Upgrade to city at " ++ d
      | Option.none =>
          "Upgrade to city at intersection " ++ toString actionIndex ++
            " (node " ++ pyStr action.value ++ ")"
  | .MOVE_ROBBER =>
      match action.value with
      | .tup (v0 :: v1 :: v2 :: _) =>
          match robberAxialLookup m v0 v2 with
          | some tile => "Move robber to " ++ tile.name
          | Option.none =>
              let _ := v1
              "Move robber to coordinate " ++ robberAxialStr v0 v2
      | _ => "Move robber (action " ++ toString actionIndex ++ ")"
  | .ROLL => "Roll dice to start turn"
  | .END_TURN => "End turn"
  | .BUY_DEVELOPMENT_CARD => "Buy development card"
  | t => titleCase (pyReplaceChar (Char.ofNat 95) (Char.ofNat 32) (actionTypeName t))

/-- The enumeration loop of `ActionParser.describe_actions`, carrying the
running index.  `_create_axial_description` never reads
`action_mappings`, so the mapper passed in stays fixed. -/
def describeActionsLoop (m : HexAxialMapper) : Nat → List Action → List (Nat × String)
  | _, [] => []
  | i, a :: rest => (i, createAxialDescription m a i) :: describeActionsLoop m (i + 1) rest

/-- Embedding of `ActionParser.describe_actions`: clear the action mappings, then map
each list position to a description, registering each mapping.  Returns
the index→description dictionary and the updated mapper. -/
def describeActions (m : HexAxialMapper) (actions : List Action) :
    List (Nat × String) × HexAxialMapper :=
  let cleared : HexAxialMapper := { m with actionMappings := [] }
  let descriptions := describeActionsLoop cleared 0 actions
  (descriptions, { cleared with actionMappings := descriptions })

/-- Python `value[i] > 0` on a dynamic value: integers compare, anything
else raises `TypeError`. -/
def pyGtZero : PyValue → Except PyErr Bool
  | .int n => .ok (decide (0 < n))
  | _ => .error ⟨.typeError, "unorderable types"⟩

/-- Python `sum` over dynamic values (raises `TypeError` on non-ints). -/
def pySum : List PyValue → Except PyErr Int
  | [] => .ok 0
  | .int n :: xs => (pySum xs).map (fun s => n + s)
  | _ => .error ⟨.typeError, "unsupported operand"⟩

/-- The `offered_resources` accumulation loop of
`_format_maritime_trade`: for each of the five resources, include
`"{count} {resource}"` when the count position exists and is positive. -/
def maritimeOffered (xs : List PyValue) : Nat → List String → Except PyErr (List String)
  | _, [] => .ok []
  | i, r :: rest => do
      let tail ← maritimeOffered xs (i + 1) rest
      if i < xs.length - 1 then
        match xs.get? i with
        | some v => do
            let pos ← pyGtZero v
            if pos then pure ((pyStr v ++ " " ++ r) :: tail) else pure tail
        | Option.none => pure tail
      else pure tail

/-- Embedding of `ActionParser._format_maritime_trade`. -/
def formatMaritimeTrade (value : PyValue) : Except PyErr String :=
  match value with
  | .tup xs =>
      if 5 ≤ xs.length then do
        let offered ← maritimeOffered xs 0 RESOURCES
        let wanted :=
          if 5 < xs.length then
            match xs.getLast? with
            | some v => pyStr v
            | Option.none => "unknown"
          else "unknown"
        let offeredStr := if offered.isEmpty then "resources" else String.intercalate ", " offered
        let totalOffered ← if 1 < xs.length then pySum (xs.dropLast) else pure 0
        let rateStr := if 0 < totalOffered then toString totalOffered ++ ":1" else "port"
        pure ("Trade " ++ offeredStr ++ " for 1 " ++ wanted ++ " at " ++ rateStr ++ " rate")
      else .ok ("Maritime trade: " ++ pyStr value)
  | _ => .ok ("Maritime trade: " ++ pyStr value)

/-! ## Board generation (`HexAxialMapper.register_tiles` and friends) -/

/-- Embedding of `HEX_DIRECTIONS` (axial, clockwise from East). -/
def HEX_DIRECTIONS : List (Int × Int) := [(1, 0), (0, 1), (-1, 1), (-1, 0), (0, -1), (1, -1)]

/-- Coordinate translation by a direction vector. -/
def addDir (c d : Int × Int) : Int × Int := (c.1 + d.1, c.2 + d.2)

/-- Embedding of `HexAxialMapper.get_neighbors`. -/
def getNeighbors (coord : Int × Int) : List (Int × Int) :=
  HEX_DIRECTIONS.map (addDir coord)

/-- Embedding of `HexAxialMapper.get_distance` (hex Chebyshev distance via cube). -/
def getDistance (c1 c2 : Int × Int) : Nat :=
  let a := axialToCube c1
  let b := axialToCube c2
  max (a.1 - b.1).natAbs (max (a.2.1 - b.2.1).natAbs (a.2.2 - b.2.2).natAbs)

/-- Embedding of `HexAxialMapper.create_tile_name`.  `resource` is the string after
`register_tiles` substituted `"Desert"` for a missing/`None` resource;
Python truthiness makes both `None` and `0` numbers render as no
number. -/
def createTileName (coord : Int × Int) (resource : String) (number : Option Int) : String :=
  let q := coord.1
  let r := coord.2
  let numStr :=
    match number with
    | some n => if n = 0 then "" else toString n
    | Option.none => ""
  if coord = (0, 0) then
    if resource = "Desert" ∨ resource = "" then "CENTER-Desert"
    else "CENTER-" ++ resource ++ numStr
  else
    let dist : Nat := max q.natAbs (max r.natAbs (-q - r).natAbs)
    let direction :=
      if dist = 1 then
        if coord = (1, 0) then "E"
        else if coord = (0, 1) then "SE"
        else if coord = (-1, 1) then "SW"
        else if coord = (-1, 0) then "W"
        else if coord = (0, -1) then "NW"
        else if coord = (1, -1) then "NE"
        else "(" ++ toString q ++ "," ++ toString r ++ ")"
      else "(" ++ toString q ++ "," ++ toString r ++ ")"
    if resource = "Desert" ∨ resource = "" then direction ++ "-Desert"
    else direction ++ "-" ++ resource ++ numStr

/-- A raw tile record handed to `register_tiles` (cube coordinate plus
optional resource and production number). -/
structure RawTile where
  coordinate : Int × Int × Int
  resource : Option String
  number : Option Int
  deriving Repr

/-- Python dict assignment `d[k] = v` on an insertion-ordered
association list: overwrite in place if the key exists, else append. -/
def dictInsert (l : List ((Int × Int) × TileInfo)) (k : Int × Int) (v : TileInfo) :
    List ((Int × Int) × TileInfo) :=
  if (l.lookup k).isSome then l.map (fun e => if e.1 = k then (k, v) else e)
  else l ++ [(k, v)]

/-- First pass of `register_tiles`: create all tiles (the `try/except`
that skips malformed records is unreachable on typed records). -/
def registerTilesFirstPass (tilesData : List RawTile) : List ((Int × Int) × TileInfo) :=
  tilesData.foldl
    (fun acc td =>
      let axial := cubeToAxial td.coordinate
      let resource0 := td.resource.getD "Desert"
      let resource := if resource0 = "" then "Desert" else resource0
      let name := createTileName axial resource td.number
      let info : TileInfo :=
        ⟨axial, some resource, td.number, name, getNeighbors axial, [], []⟩
      dictInsert acc axial info)
    []

/-- Lexicographic order on coordinate pairs — Python tuple comparison,
used by `sorted(...)` over tile coordinates. -/
def pairLexLe (a b : Int × Int) : Prop := a.1 < b.1 ∨ (a.1 = b.1 ∧ a.2 ≤ b.2)

instance : DecidableRel pairLexLe := fun a b => by unfold pairLexLe; infer_instance

/-- Python `sorted` on a list of coordinate pairs. -/
def sortPairs (l : List (Int × Int)) : List (Int × Int) := l.insertionSort pairLexLe

/-- Embedding of `corner_directions` from `_generate_intersections`: the two
neighbor directions meeting at each of the six corners of a tile. -/
def cornerDirections : List (List Nat) := [[0, 5], [0, 1], [1, 2], [2, 3], [3, 4], [4, 5]]

/-- The mutable state threaded through `_generate_intersections`:
the id counter, the dedup set `generated_intersections` (keys are
sorted coordinate tuples), the `intersections` dict, and the tiles dict
whose per-tile intersection lists get extended. -/
structure IntersectGenState where
  nextId : Nat
  generated : List (List (Int × Int))
  inters : List (String × IntersectionInfo)
  tiles : List ((Int × Int) × TileInfo)

/-- The intersection key string `"I{n}"`. -/
def mkIntersectionId (n : Nat) : String := "I" ++ toString n

/-- Collect the tiles meeting at one corner of `coord` (the tile itself
followed by whichever of the two corner neighbors exist), with names. -/
def cornerTilesFor (tiles : List ((Int × Int) × TileInfo)) (coord : Int × Int)
    (dirs : List Nat) : List ((Int × Int) × String) :=
  let ownName := match tiles.lookup coord with | some t => t.name | Option.none => ""
  (coord, ownName) ::
    dirs.filterMap (fun di =>
      match HEX_DIRECTIONS.get? di with
      | some d =>
          let n := addDir coord d
          match tiles.lookup n with
          | some t => some (n, t.name)
          | Option.none => Option.none
      | Option.none => Option.none)

/-- The shared conditional-insert step of `_generate_intersections`:
dedup by the sorted tuple of tile coordinates, then allocate a fresh
`"I{n}"` id and register the intersection on its touching tiles. -/
def insertIntersection (st : IntersectGenState) (cornerTiles : List (Int × Int))
    (cornerNames : List String) : IntersectGenState :=
  let key := sortPairs cornerTiles
  if key ∈ st.generated then st
  else
    let iid := mkIntersectionId st.nextId
    let info : IntersectionInfo := ⟨iid, cornerTiles, cornerNames, [], []⟩
    { nextId := st.nextId + 1
      generated := key :: st.generated
      inters := st.inters ++ [(iid, info)]
      tiles := st.tiles.map (fun e =>
        if e.1 ∈ cornerTiles then (e.1, { e.2 with intersections := e.2.intersections ++ [iid] })
        else e) }

/-- First pass of `_generate_intersections` for one tile: scan its six
corners. -/
def firstPassTile (coord : Int × Int) (st : IntersectGenState) : IntersectGenState :=
  cornerDirections.foldl
    (fun s dirs =>
      let ct := cornerTilesFor s.tiles coord dirs
      insertIntersection s (ct.map Prod.fst) (ct.map Prod.snd))
    st

/-- Second pass of `_generate_intersections` for one tile: synthesize
boundary intersections on outer-ring tiles whose two corner neighbors
are both absent. -/
def secondPassTile (coord : Int × Int) (st : IntersectGenState) : IntersectGenState :=
  let q := coord.1
  let r := coord.2
  let dist : Nat := max q.natAbs (max r.natAbs (-q - r).natAbs)
  if dist = 2 then
    (List.range 6).foldl
      (fun s cornerIdx =>
        let n1 := addDir coord (HEX_DIRECTIONS.getD cornerIdx (0, 0))
        let n2 := addDir coord (HEX_DIRECTIONS.getD ((cornerIdx + 1) % 6) (0, 0))
        if (s.tiles.lookup n1).isNone ∧ (s.tiles.lookup n2).isNone then
          let name := match s.tiles.lookup coord with | some t => t.name | Option.none => ""
          insertIntersection s [coord] [name, "(Port Edge)"]
        else s)
      st
  else st

/-- Embedding of `HexAxialMapper._generate_intersections` over a freshly built tiles
dict: both corner passes, iterating tiles in dict (insertion) order. -/
def generateIntersections (tiles0 : List ((Int × Int) × TileInfo)) : IntersectGenState :=
  let st0 : IntersectGenState := ⟨0, [], [], tiles0⟩
  let afterFirst := tiles0.foldl (fun s e => firstPassTile e.1 s) st0
  tiles0.foldl (fun s e => secondPassTile e.1 s) afterFirst

/-- The mutable state of `_generate_edges`. -/
structure EdgeGenState where
  nextId : Nat
  processed : List ((Int × Int) × (Int × Int))
  edges : List (String × EdgeInfo)
  inters : List (String × IntersectionInfo)
  tiles : List ((Int × Int) × TileInfo)

/-- Python `tuple(sorted([a, b]))` for a two-coordinate list. -/
def sortedPair (a b : Int × Int) : (Int × Int) × (Int × Int) :=
  if pairLexLe a b then (a, b) else (b, a)

/-- One neighbor step of `_generate_edges`: create the edge between
`coord` and `nbCoord` unless already processed, wiring it to the
intersections that touch both tiles. -/
def edgeStep (coord nbCoord : Int × Int) (s : EdgeGenState) : EdgeGenState :=
  if (s.tiles.lookup nbCoord).isSome then
    let key := sortedPair coord nbCoord
    if key ∈ s.processed then s
    else
      let t1 := key.1
      let t2 := key.2
      let t1name := match s.tiles.lookup t1 with | some t => t.name | Option.none => ""
      let t2name := match s.tiles.lookup t2 with | some t => t.name | Option.none => ""
      let eid := "E" ++ toString s.nextId
      let connecting := (s.inters.filter
        (fun p => t1 ∈ p.2.tiles ∧ t2 ∈ p.2.tiles)).map Prod.fst
      let info : EdgeInfo := ⟨eid, [t1, t2], [t1name, t2name], connecting, t1name ++ "--" ++ t2name⟩
      { nextId := s.nextId + 1
        processed := key :: s.processed
        edges := s.edges ++ [(eid, info)]
        inters := s.inters.map (fun p =>
          if p.1 ∈ connecting then (p.1, { p.2 with connectedEdges := p.2.connectedEdges ++ [eid] })
          else p)
        tiles := s.tiles.map (fun e =>
          if e.1 = t1 ∨ e.1 = t2 then (e.1, { e.2 with edges := e.2.edges ++ [eid] })
          else e) }
  else s

/-- Embedding of `HexAxialMapper._generate_edges`. -/
def generateEdges (tiles0 : List ((Int × Int) × TileInfo))
    (inters0 : List (String × IntersectionInfo)) : EdgeGenState :=
  let st0 : EdgeGenState := ⟨0, [], [], inters0, tiles0⟩
  tiles0.foldl
    (fun s e => e.2.neighbors.foldl (fun s2 nb => edgeStep e.1 nb s2) s)
    st0

/-- Embedding of `HexAxialMapper.register_tiles`: build tiles, then intersections,
then edges (`_identify_port_intersections` is a no-op in the source). -/
def registerTiles (m : HexAxialMapper) (tilesData : List RawTile) : HexAxialMapper :=
  let tiles1 := registerTilesFirstPass tilesData
  let ist := generateIntersections tiles1
  let est := generateEdges ist.tiles ist.inters
  { m with tiles := est.tiles, intersections := est.inters, edges := est.edges }

/-! ## Game-state model (`catanatron` state shape consumed by
`src/core/game_state.py`) -/

/-- Embedding of `catanatron.models.player.Color`. -/
inductive Color
  | RED
  | BLUE
  | WHITE
  | ORANGE
  deriving DecidableEq, Repr

/-- The fixed color order `[RED, BLUE, WHITE, ORANGE]` hard-coded in
`game_state.py`. -/
def allColors : List Color := [.RED, .BLUE, .WHITE, .ORANGE]

/-- The `.value` string of a color. -/
def colorValue : Color → String
  | .RED => "RED"
  | .BLUE => "BLUE"
  | .WHITE => "WHITE"
  | .ORANGE => "ORANGE"

/-- The five resource kinds. -/
inductive Resource
  | WOOD
  | BRICK
  | SHEEP
  | WHEAT
  | ORE
  deriving DecidableEq, Repr

/-- Embedding of `RESOURCES` as typed values, in the Python iteration order. -/
def RESOURCE_LIST : List Resource := [.WOOD, .BRICK, .SHEEP, .WHEAT, .ORE]

/-- The string key of a resource in `player_state`. -/
def resourceName : Resource → String
  | .WOOD => "WOOD"
  | .BRICK => "BRICK"
  | .SHEEP => "SHEEP"
  | .WHEAT => "WHEAT"
  | .ORE => "ORE"

/-- Embedding of `catanatron.models.enums.DEVELOPMENT_CARDS`. -/
inductive DevCard
  | KNIGHT
  | YEAR_OF_PLENTY
  | MONOPOLY
  | ROAD_BUILDING
  | VICTORY_POINT
  deriving DecidableEq, Repr

/-- Embedding of `DEVELOPMENT_CARDS` in iteration order. -/
def DEV_CARD_LIST : List DevCard :=
  [.KNIGHT, .YEAR_OF_PLENTY, .MONOPOLY, .ROAD_BUILDING, .VICTORY_POINT]

/-- The string key of a development card. -/
def devCardName : DevCard → String
  | .KNIGHT => "KNIGHT"
  | .YEAR_OF_PLENTY => "YEAR_OF_PLENTY"
  | .MONOPOLY => "MONOPOLY"
  | .ROAD_BUILDING => "ROAD_BUILDING"
  | .VICTORY_POINT => "VICTORY_POINT"

/-- Embedding of `catanatron.models.enums.ActionPrompt` members used by the
serializer (`catanatron` always supplies a current prompt). -/
inductive ActionPrompt
  | BUILD_INITIAL_SETTLEMENT
  | BUILD_INITIAL_ROAD
  | PLAY_TURN
  | DISCARD
  | MOVE_ROBBER
  | DECIDE_TRADE
  | DECIDE_ACCEPTEES
  deriving DecidableEq, Repr

/-- The `.value` string of an action prompt. -/
def promptValue : ActionPrompt → String
  | .BUILD_INITIAL_SETTLEMENT => "BUILD_INITIAL_SETTLEMENT"
  | .BUILD_INITIAL_ROAD => "BUILD_INITIAL_ROAD"
  | .PLAY_TURN => "PLAY_TURN"
  | .DISCARD => "DISCARD"
  | .MOVE_ROBBER => "MOVE_ROBBER"
  | .DECIDE_TRADE => "DECIDE_TRADE"
  | .DECIDE_ACCEPTEES => "DECIDE_ACCEPTEES"

/-- Python `str.lower()` restricted to ASCII letters. -/
def lowerStr (s : String) : String := String.mk (s.data.map Char.toLower)

/-- The slice of `state.player_state` belonging to one player: the
per-key counters that `game_state.py` reads through `player_key`
prefixes. -/
structure PlayerSt where
  victoryPoints : Int
  publicVictoryPoints : Int
  resources : Resource → Int
  devInHand : DevCard → Int
  devPlayedThisTurn : DevCard → Int
  hasRolled : Bool
  settlements : List Nat
  cities : List Nat
  roads : List Nat

/-- A board tile as read by `_extract_tiles_info` (`hasNumberAttr`
models `hasattr(tile, NUMBER)`; port tiles lack it and are skipped). -/
structure BoardTile where
  hasNumberAttr : Bool
  resource : Option String
  number : Option Int

/-- The board facets read by `_extract_board_state`. -/
structure BoardRec where
  robberCoordinate : Option (Int × Int × Int)
  portNodes : List (Nat × Option String)
  tiles : List ((Int × Int × Int) × BoardTile)

/-- JSON-serializable snapshot trees produced by the State Serializer. -/
inductive Json
  | null
  | bool (b : Bool)
  | num (q : ℚ)
  | str (s : String)
  | arr (xs : List Json)
  | obj (fields : List (String × Json))

/-- Field lookup on an object node. -/
def jlookup (j : Json) (k : String) : Option Json :=
  match j with
  | .obj fields => fields.lookup k
  | _ => Option.none

/-- The opaque `catanatron` game state consumed by
`GameStateExtractor.extract_state`. -/
structure GState where
  numTurns : Nat
  currentColor : Color
  currentPrompt : ActionPrompt
  playerStates : Color → PlayerSt
  resourceBank : Resource → Int
  devCardsLeft : Nat
  diceRoll : Json
  board : BoardRec

/-! ## State Serializer (`src/core/game_state.py`) -/

/-- Embedding of `catanatron.state_functions.player_num_resource_cards` (external):
the sum of the per-resource counters. -/
def playerNumResourceCards (ps : PlayerSt) : Int :=
  (RESOURCE_LIST.map ps.resources).sum

/-- The aggregate development-card count
`sum(player_state.get(card_IN_HAND, 0) for card in DEVELOPMENT_CARDS)`. -/
def devCardsInHandTotal (ps : PlayerSt) : Int :=
  (DEV_CARD_LIST.map ps.devInHand).sum

/-- Embedding of `GameStateExtractor._extract_buildings`. -/
def extractBuildings (ps : PlayerSt) : Json :=
  .obj
    [("settlements", .arr (ps.settlements.map (fun n => .num n))),
     ("cities", .arr (ps.cities.map (fun n => .num n))),
     ("roads", .arr (ps.roads.map (fun n => .num n))),
     ("settlements_available", .num ((5 : Int) - ps.settlements.length)),
     ("cities_available", .num ((4 : Int) - ps.cities.length)),
     ("roads_available", .num ((15 : Int) - ps.roads.length))]

/-- Building costs from `catanatron.models.decks` (external constants):
wood/brick/sheep/wheat/ore frequency decks. -/
def costFreqdeck : String → Resource → Int
  | "settlement", .WOOD => 1
  | "settlement", .BRICK => 1
  | "settlement", .SHEEP => 1
  | "settlement", .WHEAT => 1
  | "city", .WHEAT => 2
  | "city", .ORE => 3
  | "road", .WOOD => 1
  | "road", .BRICK => 1
  | "development_card", .SHEEP => 1
  | "development_card", .WHEAT => 1
  | "development_card", .ORE => 1
  | _, _ => 0

/-- Embedding of `player_resource_freqdeck_contains` (external): pointwise
affordability. -/
def canAffordDeck (ps : PlayerSt) (kind : String) : Bool :=
  RESOURCE_LIST.all (fun r => costFreqdeck kind r ≤ ps.resources r)

/-- Embedding of `GameStateExtractor._check_affordability`. -/
def checkAffordability (ps : PlayerSt) : Json :=
  .obj
    [("settlement", .bool (canAffordDeck ps "settlement")),
     ("city", .bool (canAffordDeck ps "city")),
     ("road", .bool (canAffordDeck ps "road")),
     ("development_card", .bool (canAffordDeck ps "development_card"))]

/-- Embedding of `GameStateExtractor._extract_player_state`: the shared base record,
extended with per-resource and per-development-card breakdowns only
when `detailed` is set (the own view of the deciding player). -/
def extractPlayerState (s : GState) (c : Color) (detailed : Bool) : Json :=
  let ps := s.playerStates c
  let baseInfo : List (String × Json) :=
    [("color", .str (colorValue c)),
     ("victory_points", .num ps.victoryPoints),
     ("public_victory_points", .num ps.publicVictoryPoints),
     ("resource_cards_count", .num (playerNumResourceCards ps)),
     ("development_cards_count", .num (devCardsInHandTotal ps)),
     ("has_rolled_this_turn", .bool ps.hasRolled),
     ("buildings", extractBuildings ps)]
  if detailed then
    .obj (baseInfo ++
      [("resources", .obj (RESOURCE_LIST.map (fun r => (resourceName r, .num (ps.resources r))))),
       ("development_cards", .obj (DEV_CARD_LIST.map (fun d =>
          (devCardName d,
            Json.obj [("in_hand", .num (ps.devInHand d)),
                      ("played", .num (ps.devPlayedThisTurn d))])))),
       ("can_afford", checkAffordability ps)])
  else .obj baseInfo

/-- Embedding of `GameStateExtractor._extract_opponents_state`: the restricted
(`detailed=False`) view of every non-deciding color. -/
def extractOpponentsState (s : GState) (currentPlayerColor : Color) : List Json :=
  (allColors.filter (fun c => c ≠ currentPlayerColor)).map
    (fun c => extractPlayerState s c false)

/-- Embedding of `GameStateExtractor._get_winning_player`. -/
def getWinningPlayer (s : GState) : Json :=
  match allColors.find? (fun c => 10 ≤ (s.playerStates c).victoryPoints) with
  | some c => .str (colorValue c)
  | Option.none => .null

/-- Embedding of `GameStateExtractor._determine_game_phase`. -/
def determineGamePhase (s : GState) : String :=
  if s.currentPrompt = .BUILD_INITIAL_SETTLEMENT ∨ s.currentPrompt = .BUILD_INITIAL_ROAD then
    "setup"
  else
    let maxVp := (allColors.map (fun c => (s.playerStates c).victoryPoints)).foldl max 0
    if maxVp < 5 then "early" else if maxVp < 8 then "mid" else "late"

/-- Embedding of `GameStateExtractor._extract_game_info`. -/
def extractGameInfo (s : GState) : Json :=
  .obj
    [("turn_number", .num s.numTurns),
     ("current_player_color", .str (colorValue s.currentColor)),
     ("winning_player", getWinningPlayer s),
     ("game_phase", .str (determineGamePhase s))]

/-- Embedding of `GameStateExtractor._extract_ports_info`. -/
def extractPortsInfo (b : BoardRec) : Json :=
  .arr (b.portNodes.map (fun p =>
    Json.obj
      [("node_id", .num p.1),
       ("resource", match p.2 with | some r => .str r | Option.none => .null),
       ("trade_ratio", .num (if p.2 = some "FOUR_TO_ONE" then 4 else 2))]))

/-- Embedding of `GameStateExtractor._extract_tiles_info` (skips tiles without a
`number` attribute, i.e. port tiles). -/
def extractTilesInfo (b : BoardRec) : Json :=
  .arr ((b.tiles.filter (fun t => t.2.hasNumberAttr)).map (fun t =>
    Json.obj
      [("coordinate", .arr [.num t.1.1, .num t.1.2.1, .num t.1.2.2]),
       ("resource", match t.2.resource with | some r => .str r | Option.none => .null),
       ("number", match t.2.number with | some n => .num n | Option.none => .null),
       ("has_robber", .bool (b.robberCoordinate = some t.1))]))

/-- Embedding of `GameStateExtractor._extract_board_state`. -/
def extractBoardState (s : GState) : Json :=
  .obj
    [("robber_position",
        match s.board.robberCoordinate with
        | some c => .arr [.num c.1, .num c.2.1, .num c.2.2]
        | Option.none => .null),
     ("ports", extractPortsInfo s.board),
     ("tiles", extractTilesInfo s.board),
     ("available_building_spots",
        .obj [("settlement_spots", .arr []), ("city_upgrade_spots", .arr []),
              ("road_spots", .arr [])]),
     ("longest_road_owner", .null),
     ("largest_army_owner", .null)]

/-- Embedding of `GameStateExtractor._extract_resources_info`. -/
def extractResourcesInfo (s : GState) : Json :=
  .obj
    [("resource_bank",
        .obj (RESOURCE_LIST.map (fun r => (resourceName r, Json.num (s.resourceBank r))))),
     ("development_cards_left", .num s.devCardsLeft),
     ("dice_roll_this_turn", s.diceRoll)]

/-- Embedding of `GameStateExtractor._identify_trade_opportunities`. -/
def identifyTradeOpportunities (s : GState) (c : Color) : Json :=
  .arr ((RESOURCE_LIST.filter (fun r => 4 ≤ (s.playerStates c).resources r)).map (fun r =>
    Json.obj
      [("type", .str "maritime"), ("offer", .str (resourceName r)),
       ("ratio", .str "4:1"), ("available", .bool true)]))

/-- Embedding of `GameStateExtractor._suggest_building_priorities`. -/
def suggestBuildingPriorities (s : GState) (c : Color) : Json :=
  let vp := (s.playerStates c).victoryPoints
  if vp < 5 then .arr [.str "settlements", .str "roads"]
  else if vp < 8 then .arr [.str "cities", .str "development_cards"]
  else .arr [.str "development_cards", .str "cities"]

/-- Embedding of `GameStateExtractor._assess_threats`. -/
def assessThreats (s : GState) (c : Color) : Json :=
  let vp := (s.playerStates c).victoryPoints
  .arr ((allColors.filter (fun oc => oc ≠ c ∧ vp + 2 ≤ (s.playerStates oc).victoryPoints)).map
    (fun oc =>
      Json.obj
        [("player", .str (colorValue oc)),
         ("threat_level",
            .str (if 8 ≤ (s.playerStates oc).victoryPoints then "high" else "medium")),
         ("victory_points", .num (s.playerStates oc).victoryPoints)]))

/-- Embedding of `GameStateExtractor._analyze_victory_paths` (Python `//` is floor
division). -/
def analyzeVictoryPaths (s : GState) (c : Color) : Json :=
  let vp := (s.playerStates c).victoryPoints
  let vpNeeded := 10 - vp
  .obj
    [("current_victory_points", .num vp),
     ("points_needed", .num vpNeeded),
     ("turns_estimated", .num (max 1 (Int.fdiv vpNeeded 2))),
     ("recommended_strategy", .str (if vpNeeded ≤ 3 then "aggressive" else "building"))]

/-- Embedding of `GameStateExtractor._extract_strategic_context`. -/
def extractStrategicContext (s : GState) (c : Color) : Json :=
  .obj
    [("trade_opportunities", identifyTradeOpportunities s c),
     ("building_priorities", suggestBuildingPriorities s c),
     ("threat_assessment", assessThreats s c),
     ("victory_analysis", analyzeVictoryPaths s c)]

/-- Embedding of `GameStateExtractor._determine_turn_phase`. -/
def determineTurnPhase (s : GState) : String :=
  if s.currentPrompt = .PLAY_TURN then
    if (s.playerStates s.currentColor).hasRolled then "post_roll" else "pre_roll"
  else if s.currentPrompt = .DISCARD then "discard"
  else if s.currentPrompt = .MOVE_ROBBER then "move_robber"
  else lowerStr (promptValue s.currentPrompt)

/-- Embedding of `GameStateExtractor._get_expected_action_type`. -/
def getExpectedActionType (s : GState) : Json :=
  match s.currentPrompt with
  | .BUILD_INITIAL_SETTLEMENT => .str "BUILD_SETTLEMENT"
  | .BUILD_INITIAL_ROAD => .str "BUILD_ROAD"
  | .PLAY_TURN => .str "ROLL_OR_ACTION"
  | .DISCARD => .str "DISCARD"
  | .MOVE_ROBBER => .str "MOVE_ROBBER"
  | .DECIDE_TRADE => .str "TRADE_DECISION"
  | _ => .null

/-- Embedding of `GameStateExtractor._extract_turn_context`. -/
def extractTurnContext (s : GState) : Json :=
  .obj
    [("current_prompt", .str (promptValue s.currentPrompt)),
     ("expecting_action", getExpectedActionType s),
     ("turn_phase", .str (determineTurnPhase s))]

/-- Embedding of `GameStateExtractor.extract_state`: the full per-decision snapshot. -/
def extractState (s : GState) (currentPlayerColor : Color) : Json :=
  .obj
    [("game_info", extractGameInfo s),
     ("board_state", extractBoardState s),
     ("current_player", extractPlayerState s currentPlayerColor true),
     ("opponents", .arr (extractOpponentsState s currentPlayerColor)),
     ("resources_and_cards", extractResourcesInfo s),
     ("strategic_context", extractStrategicContext s currentPlayerColor),
     ("turn_context", extractTurnContext s)]

/-! ## Decision Agent (`src/core/llm_player.py`) -/

/-- Embedding of `LLMPlayer.clean_json`: helper computing the new depth after one
character of the backward brace scan. -/
def cleanJsonCharDepth (c : Char) (depth : Int) : Int :=
  if c = Char.ofNat 125 then depth + 1
  else if c = Char.ofNat 123 then depth - 1
  else depth

/-- The backward scan of `clean_json`: walk from index `i` down to `0`,
returning the index of the opening brace that balances the final
closing brace, if any. -/
def cleanJsonFind (cs : List Char) : Nat → Int → Option Nat
  | 0, depth =>
      let c := cs.getD 0 (Char.ofNat 32)
      if c = Char.ofNat 123 ∧ cleanJsonCharDepth c depth = 0 then some 0 else Option.none
  | j + 1, depth =>
      let c := cs.getD (j + 1) (Char.ofNat 32)
      if c = Char.ofNat 123 ∧ cleanJsonCharDepth c depth = 0 then some (j + 1)
      else cleanJsonFind cs j (cleanJsonCharDepth c depth)

/-- Python `str.rfind(c)`: index of the last occurrence. -/
def rfindChar (cs : List Char) (c : Char) : Option Nat :=
  match cs.reverse.findIdx? (fun x => x = c) with
  | some k => some (cs.length - 1 - k)
  | Option.none => Option.none

/-- Embedding of `LLMPlayer.clean_json`: slice out the outermost balanced
`braces` substring ending at the last closing brace; return the input
unchanged when no such substring exists. -/
def cleanJson (s : String) : String :=
  match rfindChar s.data (Char.ofNat 125) with
  | Option.none => s
  | some jsonEnd =>
      match cleanJsonFind s.data jsonEnd 0 with
      | some start => String.mk ((s.data.drop start).take (jsonEnd + 1 - start))
      | Option.none => s

/-- Embedding of `parsed.get(key)` — Python `dict.get` with `None` default; a
non-dict raises `AttributeError` (which the outer handler of
`_parse_llm_response` does not catch). -/
def jsonGetField (j : Json) (k : String) : Except PyErr Json :=
  match j with
  | .obj fields => .ok ((fields.lookup k).getD .null)
  | _ => .error ⟨.attributeError, "object has no attribute get"⟩

/-- Numeric value of a digit run. -/
def digitsVal (ds : List Char) : Nat :=
  ds.foldl (fun a c => 10 * a + (c.toNat - 48)) 0

/-- Python `int(str)`: optional whitespace, optional sign, digits;
anything else raises `ValueError`. -/
def pyIntOfString (s : String) : Except PyErr Int :=
  let t := ((s.data.dropWhile Char.isWhitespace).reverse.dropWhile Char.isWhitespace).reverse
  match t with
  | [] => .error ⟨.valueError, "invalid literal for int"⟩
  | c :: rest =>
      let signed : Bool × List Char :=
        if c = Char.ofNat 45 then (true, rest)
        else if c = Char.ofNat 43 then (false, rest)
        else (false, c :: rest)
      if signed.2 ≠ [] ∧ signed.2.all Char.isDigit then
        .ok (if signed.1 then -(digitsVal signed.2 : Int) else (digitsVal signed.2 : Int))
      else .error ⟨.valueError, "invalid literal for int"⟩

/-- Python `int(x)` on a JSON value: truncation toward zero for
numbers, parsing for strings, `TypeError` for `None` and containers. -/
def pyIntOfJson : Json → Except PyErr Int
  | .num q => .ok (if 0 ≤ q then ⌊q⌋ else ⌈q⌉)
  | .bool b => .ok (if b then 1 else 0)
  | .str s => pyIntOfString s
  | .null => .error ⟨.typeError, "int of NoneType"⟩
  | _ => .error ⟨.typeError, "int of non-scalar value"⟩

/-- Rough Python `str()` of a JSON value, used only for the free-text
`reasoning` field (its content is irrelevant to every claim). -/
def jsonToPlainStr : Json → String
  | .str s => s
  | .null => "None"
  | .bool b => if b then "True" else "False"
  | .num q => toString q.num
  | _ => "object"

/-- Word characters for the regex word boundary in `\b\d+\b`. -/
def isWordChar (c : Char) : Bool := c.isAlphanum || c = Char.ofNat 95

/-- State of the scanner extracting standalone digit runs: the finished
runs, the in-progress reversed run with its left-boundary flag, and the
previous character. -/
structure IntScanState where
  acc : List (List Char)
  cur : Option (List Char × Bool)
  prev : Option Char

/-- One scanner step for `re.findall` of standalone integers. -/
def intScanStep (st : IntScanState) (c : Char) : IntScanState :=
  if c.isDigit then
    match st.cur with
    | some cu => { st with cur := some (c :: cu.1, cu.2), prev := some c }
    | Option.none =>
        let prevOk := match st.prev with | Option.none => true | some p => !(isWordChar p)
        { st with cur := some ([c], prevOk), prev := some c }
  else
    match st.cur with
    | some cu =>
        { acc := if cu.2 && !(isWordChar c) then st.acc ++ [cu.1.reverse] else st.acc
          cur := Option.none
          prev := some c }
    | Option.none => { st with prev := some c }

/-- Embedding of `re.findall` of the standalone-integer pattern over a string. -/
def findAllInts (s : String) : List (List Char) :=
  let fin := s.data.foldl intScanStep ⟨[], Option.none, Option.none⟩
  match fin.cur with
  | some cu => if cu.2 then fin.acc ++ [cu.1.reverse] else fin.acc
  | Option.none => fin.acc

/-- The pluggable collaborators of `_parse_llm_response`:
`json.loads` (Python stdlib) and the secondary "JSON fixer" completion
backend used by `json_fix` (the source routes it through `use_groq`;
its reply is any string and its failures any exception, so both are
abstract here). -/
structure ParseCtx where
  jsonLoads : String → Except PyErr Json
  groqComplete : String → Except PyErr String

/-- The fixer prompt assembled by `LLMPlayer.json_fix`. -/
def jsonFixPrompt (input : String) : String :=
  "You are a JSON fixer. You have been given a piece of text that is not valid JSON. " ++
  "Extract the valid JSON from it and return it. Here is the text: " ++ input ++
  " Return the valid JSON. Ensure you return perfect json with perfect indentation " ++
  "and no outside text."

/-- Embedding of `LLMPlayer.json_fix`: ask the secondary backend for corrected JSON,
then slice it with `clean_json`. -/
def jsonFix (ctx : ParseCtx) (input : String) : Except PyErr String := do
  let response ← ctx.groqComplete (jsonFixPrompt input)
  pure (cleanJson response)

/-- Exception kinds caught by the outer handler of
`_parse_llm_response` (`json.JSONDecodeError` is a `ValueError`
subclass). -/
def outerCaught (k : PyErrKind) : Bool :=
  k = .jsonDecode || k = .valueError || k = .typeError

/-- Embedding of `LLMPlayer._parse_llm_response`: strict parse of the cleaned reply,
then the `json_fix` repair pass, then integer extraction of
`action_index`; on a caught failure, fall back to the first standalone
integer in the current value of the `response` variable. -/
def parseLlmResponse (ctx : ParseCtx) (response0 : String) : Except PyErr (Int × String) :=
  let cleaned := cleanJson response0
  let inner : Except (PyErr × String) (Json × String) :=
    match ctx.jsonLoads cleaned with
    | .ok parsed => .ok (parsed, cleaned)
    | .error _ =>
        match jsonFix ctx cleaned with
        | .ok fixed =>
            match ctx.jsonLoads fixed with
            | .ok parsed => .ok (parsed, fixed)
            | .error e2 => .error (e2, fixed)
        | .error e => .error (e, cleaned)
  let attempt : Except (PyErr × String) (Int × String) :=
    match inner with
    | .ok pr =>
        match jsonGetField pr.1 "action_index" with
        | .ok v =>
            match pyIntOfJson v with
            | .ok idx =>
                let reasoning :=
                  match pr.1 with
                  | .obj fs =>
                      match fs.lookup "reasoning" with
                      | some (.str s2) => s2
                      | some j => jsonToPlainStr j
                      | Option.none => "No reasoning provided"
                  | _ => "No reasoning provided"
                .ok (idx, reasoning)
            | .error e => .error (e, pr.2)
        | .error e => .error (e, pr.2)
    | .error es => .error es
  match attempt with
  | .ok r => .ok r
  | .error es =>
      if outerCaught es.1.kind then
        match (findAllInts es.2).head? with
        | some run => .ok ((digitsVal run : Int), "Extracted from: " ++ es.2)
        | Option.none => .error ⟨.valueError, "Could not parse response: " ++ es.2⟩
      else .error es.1

/-- The running counters of `LLMPlayer.stats`. -/
structure Stats where
  totalDecisions : Nat
  successfulDecisions : Nat
  failedDecisions : Nat
  avgDecisionTime : ℚ
  totalDecisionTime : ℚ
  retryCount : Nat
  fallbackCount : Nat
  deriving DecidableEq, Repr

/-- The all-zero counters installed by `__init__`/`reset_state`. -/
def initStats : Stats := ⟨0, 0, 0, 0, 0, 0, 0⟩

/-- The primary text-completion backend (`llm_client.query`), indexed
by prompt and call number; it raises on failure. -/
structure Backend where
  query : String → Nat → Except PyErr String

/-- One attempt of `_query_llm_with_retry`: query, parse, validate the
index range, and select the action. -/
def attemptOnce (ctx : ParseCtx) (backend : Backend) (prompt : String)
    (actions : List Action) (callIdx : Nat) : Except PyErr Action :=
  match backend.query prompt callIdx with
  | .error e => .error e
  | .ok response =>
      match parseLlmResponse ctx response with
      | .error e => .error e
      | .ok pr =>
          if h : 0 ≤ pr.1 ∧ pr.1 < (actions.length : Int) then
            .ok (actions.get ⟨pr.1.toNat, by omega⟩)
          else .error ⟨.valueError, "Invalid action index"⟩

/-- The attempt loop of `_query_llm_with_retry`, returning the result
plus the number of backend calls made and of retry increments. -/
def queryLlmWithRetryGo (ctx : ParseCtx) (backend : Backend) (prompt : String)
    (actions : List Action) : Nat → Nat → Nat → Except PyErr Action × Nat × Nat
  | 0, calls, retries =>
      (.error ⟨.genericError, "All retry attempts failed."⟩, calls, retries)
  | k + 1, calls, retries =>
      match attemptOnce ctx backend prompt actions calls with
      | .ok a => (.ok a, calls + 1, retries)
      | .error _ => queryLlmWithRetryGo ctx backend prompt actions k (calls + 1) (retries + 1)

/-- Embedding of `LLMPlayer._query_llm_with_retry`. -/
def queryLlmWithRetry (ctx : ParseCtx) (backend : Backend) (prompt : String)
    (actions : List Action) (maxRetries : Nat) : Except PyErr Action × Nat × Nat :=
  queryLlmWithRetryGo ctx backend prompt actions maxRetries 0 0

/-- Embedding of `LLMPlayer._update_stats` (`total_decisions` was already
incremented by `decide`, so the average never divides by zero). -/
def updateStats (decisionTime : ℚ) (success : Bool) (s : Stats) : Stats :=
  let total := s.totalDecisionTime + decisionTime
  { s with
    totalDecisionTime := total
    avgDecisionTime := total / (s.totalDecisions : ℚ)
    successfulDecisions := if success then s.successfulDecisions + 1 else s.successfulDecisions
    failedDecisions := if success then s.failedDecisions else s.failedDecisions + 1 }

/-- Embedding of `LLMPlayer._fallback_action`: bump the fallback counter, raise
`RuntimeError` on an empty move list, otherwise return the first
move. -/
def fallbackAction (actions : List Action) (stats : Stats) : Except PyErr (Action × Stats) :=
  let stats2 := { stats with fallbackCount := stats.fallbackCount + 1 }
  match actions with
  | [] => .error ⟨.runtimeError, "No actions supplied to fallback!"⟩
  | a :: _ => .ok (a, stats2)

mutual

/-- A plain renderer standing in for `json.dumps` in the prompt. -/
def jsonRender : Json → String
  | .null => "null"
  | .bool b => if b then "true" else "false"
  | .num q => toString q.num
  | .str s => "\x22" ++ s ++ "\x22"
  | .arr xs => "[" ++ String.intercalate ", " (jsonRenderList xs) ++ "]"
  | .obj fs => "\x7b" ++ String.intercalate ", " (jsonRenderFields fs) ++ "\x7d"

/-- Renderer mapped over array elements. -/
def jsonRenderList : List Json → List String
  | [] => []
  | x :: xs => jsonRender x :: jsonRenderList xs

/-- Renderer mapped over object fields. -/
def jsonRenderFields : List (String × Json) → List String
  | [] => []
  | f :: fs => ("\x22" ++ f.1 ++ "\x22: " ++ jsonRender f.2) :: jsonRenderFields fs

end

/-- The loop of `ActionParser.get_readable_action_descriptions`:
take the registered mapping when truthy, else re-describe. -/
def getReadableLoop (m : HexAxialMapper) : Nat → List Action → List (Nat × String)
  | _, [] => []
  | i, a :: rest =>
      let d :=
        match optTruthy (m.actionMappings.lookup i) with
        | some s => s
        | Option.none => createAxialDescription m a i
      (i, d) :: getReadableLoop m (i + 1) rest

/-- Embedding of `ActionParser.get_readable_action_descriptions`. -/
def getReadableActionDescriptions (m : HexAxialMapper) (actions : List Action) :
    List (Nat × String) :=
  getReadableLoop m 0 actions

/-- Embedding of `LLMPlayer._create_decision_prompt`: the single text prompt (the
literal rules/strategy boilerplate from `src/prompts` is elided — the
backend consumes the prompt opaquely). -/
def createDecisionPrompt (gameState : Json) (descs : List (Nat × String)) : String :=
  "CURRENT GAME STATE: " ++ jsonRender gameState ++
  " AVAILABLE ACTIONS: " ++
  String.intercalate ", " (descs.map (fun p => toString p.1 ++ ": " ++ p.2)) ++
  " You must respond with a JSON object containing action_index and reasoning. " ++
  "action_index must be an integer between 0 and " ++ toString (descs.length - 1) ++
  ", based on the index of the action in the list above."

/-- The non-shortcut body of `LLMPlayer.decide`: serialize, describe,
prompt, query with retries; catch any failure and fall back.  Every
pre-query step is total in this embedding, so the caught exceptions are
exactly those of the query/parse pipeline. -/
def decideNormal (ctx : ParseCtx) (backend : Backend) (m : HexAxialMapper)
    (maxRetries : Nat) (elapsed : ℚ) (gs : GState) (color : Color)
    (playableActions : List Action) (stats : Stats) :
    Except PyErr (Action × Stats) × Nat :=
  let gameState := extractState gs color
  let described := describeActions m playableActions
  let readable := getReadableActionDescriptions described.2 playableActions
  let prompt := createDecisionPrompt gameState readable
  match queryLlmWithRetry ctx backend prompt playableActions maxRetries with
  | (.ok a, calls, retries) =>
      let stats2 := updateStats elapsed true { stats with retryCount := stats.retryCount + retries }
      (.ok (a, stats2), calls)
  | (.error _, calls, retries) =>
      let stats2 := updateStats elapsed false { stats with retryCount := stats.retryCount + retries }
      (fallbackAction playableActions stats2, calls)

/-- Embedding of `LLMPlayer.decide`: bump the decision counter; on a singleton
roll/end-turn list return immediately (no backend call, no decision
time recorded); otherwise run the try-block and fall back on any
failure.  Returns the outcome, the updated stats, and the number of
primary-backend calls made. -/
def LLMPlayer.decide (ctx : ParseCtx) (backend : Backend) (m : HexAxialMapper)
    (maxRetries : Nat) (elapsed : ℚ) (gs : GState) (color : Color)
    (playableActions : List Action) (stats0 : Stats) :
    Except PyErr (Action × Stats) × Nat :=
  let stats := { stats0 with totalDecisions := stats0.totalDecisions + 1 }
  match playableActions with
  | [a] =>
      if a.actionType = .ROLL ∨ a.actionType = .END_TURN then (.ok (a, stats), 0)
      else decideNormal ctx backend m maxRetries elapsed gs color [a] stats
  | _ => decideNormal ctx backend m maxRetries elapsed gs color playableActions stats

/-! ## Tournament result aggregation (`src/tournament/manager.py`) -/

/-- The dynamic `winner["name"]` field: a single name string for a
definitive winner, a list of names for a tie (as produced by
`_play_single_game`), or `None`. -/
inductive WinnerName
  | str (s : String)
  | list (l : List String)
  | pyNone
  deriving DecidableEq, Repr

/-- The `winner` sub-dict of a game result. -/
structure WinnerInfo where
  name : WinnerName
  isTie : Bool
  deriving DecidableEq, Repr

/-- One entry of the players list of a game result. -/
structure PlayerInfo where
  name : String
  color : String
  deriving DecidableEq, Repr

/-- A game result as consumed by the aggregation functions. -/
structure GameResult where
  players : List PlayerInfo
  winner : Option WinnerInfo
  durationSeconds : ℚ
  deriving DecidableEq, Repr

/-- The per-game win increments added to the `wins` dict by
`_analyze_tournament_results`: `1/k` to each name of a tie list,
`1` to a single string winner, nothing otherwise. -/
def winContribs (w : Option WinnerInfo) : List (String × ℚ) :=
  match w with
  | Option.none => []
  | some wi =>
      match wi.isTie, wi.name with
      | true, .list l => l.map (fun p => (p, (1 : ℚ) / l.length))
      | false, .str s => [(s, 1)]
      | _, _ => []

/-- Embedding of `wins[name] = wins.get(name, 0) + x` on an association list. -/
def bumpWins (wins : List (String × ℚ)) (p : String) (x : ℚ) : List (String × ℚ) :=
  match wins.lookup p with
  | some v => wins.map (fun e => if e.1 = p then (p, v + x) else e)
  | Option.none => wins ++ [(p, x)]

/-- Fold the win increments of one game into the `wins` dict. -/
def applyWinContribs (wins : List (String × ℚ)) (w : Option WinnerInfo) :
    List (String × ℚ) :=
  (winContribs w).foldl (fun ws pc => bumpWins ws pc.1 pc.2) wins

/-- The `ties` counter increment for one game. -/
def tieIncrement (w : Option WinnerInfo) : Nat :=
  match w with
  | some wi => match wi.isTie, wi.name with
    | true, .list _ => 1
    | _, _ => 0
  | Option.none => 0

/-- The analysis record returned by `_analyze_tournament_results`. -/
structure TournamentAnalysis where
  totalGames : Nat
  successfulGames : Nat
  failedGames : Nat
  successRate : ℚ
  winCounts : List (String × ℚ)
  ties : Nat
  averageGameDuration : ℚ
  totalTournamentDuration : ℚ

/-- Embedding of `TournamentManager._analyze_tournament_results`. -/
def analyzeTournamentResults (gameResults : List GameResult) : TournamentAnalysis :=
  let totalGames := gameResults.length
  let successfulGames := (gameResults.filter (fun g => g.winner.isSome)).length
  let acc := gameResults.foldl
    (fun a g => (applyWinContribs a.1 g.winner, a.2 + tieIncrement g.winner))
    (([] : List (String × ℚ)), (0 : Nat))
  let durations := gameResults.map (fun g => g.durationSeconds)
  { totalGames := totalGames
    successfulGames := successfulGames
    failedGames := totalGames - successfulGames
    successRate := if 0 < totalGames then (successfulGames : ℚ) / totalGames else 0
    winCounts := acc.1
    ties := acc.2
    averageGameDuration := if durations.isEmpty then 0 else durations.sum / durations.length
    totalTournamentDuration := durations.sum }

/-- The win increment a single named player receives for one game in
`_calculate_player_statistics`. -/
def statsWinIncrement (w : Option WinnerInfo) (nm : String) : ℚ :=
  match w with
  | Option.none => 0
  | some wi =>
      match wi.isTie with
      | true =>
          match wi.name with
          | .list l => if nm ∈ l then (1 : ℚ) / l.length else 0
          | _ => 0
      | false => if wi.name = .str nm then 1 else 0

/-- Per-player counters of `_calculate_player_statistics` (the
decision-latency fields are omitted: they never affect wins). -/
structure PlayerStatRec where
  gamesPlayed : Nat
  wins : ℚ
  winRate : ℚ
  deriving DecidableEq, Repr

/-- Process one `player_info` entry of one result. -/
def bumpPlayerStat (stats : List (String × PlayerStatRec)) (nm : String)
    (w : Option WinnerInfo) : List (String × PlayerStatRec) :=
  let base := match stats.lookup nm with
    | some v => v
    | Option.none => ⟨0, 0, 0⟩
  let upd : PlayerStatRec :=
    { base with gamesPlayed := base.gamesPlayed + 1, wins := base.wins + statsWinIncrement w nm }
  match stats.lookup nm with
  | some _ => stats.map (fun e => if e.1 = nm then (nm, upd) else e)
  | Option.none => stats ++ [(nm, upd)]

/-- Embedding of `TournamentManager._calculate_player_statistics`. -/
def calculatePlayerStatistics (gameResults : List GameResult) :
    List (String × PlayerStatRec) :=
  let base := gameResults.foldl
    (fun st g => g.players.foldl (fun st2 p => bumpPlayerStat st2 p.name g.winner) st)
    []
  base.map (fun e =>
    (e.1, { e.2 with
      winRate := if 0 < e.2.gamesPlayed then e.2.wins / (e.2.gamesPlayed : ℚ) else 0 }))

/-! ## ELO ratings (`src/competition_tournament.py`) -/

/-- The fixed starting roster of `calculate_elo_ratings`: only these
four names exist as keys of the ratings dict. -/
noncomputable def eloStart : List (String × ℝ) :=
  [("GPT-5", 1500), ("Claude-Sonnet-4", 1500), ("Gemini-2.5-Pro", 1500), ("Kimi-K2", 1500)]

/-- The four roster names. -/
def eloRoster : List String := ["GPT-5", "Claude-Sonnet-4", "Gemini-2.5-Pro", "Kimi-K2"]

/-- Embedding of `ratings[k]` — raises `KeyError` for a missing key. -/
def ratingsGet (r : List (String × ℝ)) (k : String) : Except PyErr ℝ :=
  match r.lookup k with
  | some v => .ok v
  | Option.none => .error ⟨.keyError, k⟩

/-- Embedding of `ratings[k] = v` for a key already present. -/
def ratingsSet (r : List (String × ℝ)) (k : String) (v : ℝ) : List (String × ℝ) :=
  r.map (fun e => if e.1 = k then (k, v) else e)

/-- The actual score of `player1` in one game:
`0.5` for membership in a tie list, `1` for an outright win, else `0`. -/
def eloActualScore (wi : WinnerInfo) (p1 : String) : ℝ :=
  match wi.isTie with
  | true =>
      match wi.name with
      | .list l => if p1 ∈ l then 0.5 else 0
      | _ => 0
  | false => if wi.name = .str p1 then 1 else 0

/-- One ordered-pair update of `calculate_elo_ratings`:
`expected = 1/(1 + 10 ** ((elo[p2] - elo[p1]) / 400))` and
`elo[p1] += 32 * (actual - expected)` — all reads against the current
(already partially updated) ratings dict. -/
noncomputable def processPair (wi : WinnerInfo) (ratings : List (String × ℝ))
    (p1 p2 : String) : Except PyErr (List (String × ℝ)) :=
  match ratingsGet ratings p2 with
  | .error e => .error e
  | .ok r2 =>
      match ratingsGet ratings p1 with
      | .error e => .error e
      | .ok r1 =>
          let expected : ℝ := 1 / (1 + (10 : ℝ) ^ ((r2 - r1) / 400))
          let actual : ℝ := eloActualScore wi p1
          match ratingsGet ratings p1 with
          | .error e => .error e
          | .ok r1cur => .ok (ratingsSet ratings p1 (r1cur + 32 * (actual - expected)))

/-- The ordered pairs `(players[i], players[j])` for `i ≠ j`, in the
row-major order of the two nested `enumerate` loops. -/
def orderedPairs (players : List String) : List (String × String) :=
  (players.enum.map (fun ip => players.enum.filterMap (fun jp =>
      if ip.1 ≠ jp.1 then some (ip.2, jp.2) else Option.none))).flatten

/-- Sequentially apply the pair updates of one game. -/
noncomputable def processPairs (wi : WinnerInfo) :
    List (String × String) → List (String × ℝ) → Except PyErr (List (String × ℝ))
  | [], r => .ok r
  | p :: ps, r =>
      match processPair wi r p.1 p.2 with
      | .ok r2 => processPairs wi ps r2
      | .error e => .error e

/-- Process one game of `calculate_elo_ratings` (games without a
recorded winner are skipped). -/
noncomputable def processGame (g : GameResult) (ratings : List (String × ℝ)) :
    Except PyErr (List (String × ℝ)) :=
  match g.winner with
  | Option.none => .ok ratings
  | some wi => processPairs wi (orderedPairs (g.players.map (fun p => p.name))) ratings

/-- Sequentially process the game list. -/
noncomputable def processGames :
    List GameResult → List (String × ℝ) → Except PyErr (List (String × ℝ))
  | [], r => .ok r
  | g :: gs, r =>
      match processGame g r with
      | .ok r2 => processGames gs r2
      | .error e => .error e

/-- Embedding of `calculate_elo_ratings` over the `games` list of a tournament
result. -/
noncomputable def calculateEloRatings (games : List GameResult) :
    Except PyErr (List (String × ℝ)) :=
  processGames games eloStart

/-! ## Shared fixtures for concrete witnesses -/

/-- A mapper with no registered board (the state every `LLMPlayer`
action parser starts from). -/
def emptyMapper : HexAxialMapper := ⟨[], [], [], [], []⟩

/-- A small concrete game state used by witnesses. -/
def sampleState : GState :=
  { numTurns := 0
    currentColor := .RED
    currentPrompt := .PLAY_TURN
    playerStates := fun _ =>
      { victoryPoints := 2, publicVictoryPoints := 2, resources := fun _ => 0
        devInHand := fun _ => 0, devPlayedThisTurn := fun _ => 0, hasRolled := false
        settlements := [], cities := [], roads := [] }
    resourceBank := fun _ => 19
    devCardsLeft := 25
    diceRoll := .null
    board := ⟨Option.none, [], []⟩ }

/-- A parse context whose `json.loads` and fixer backend always fail. -/
def failingParseCtx : ParseCtx :=
  ⟨fun _ => .error ⟨.jsonDecode, "invalid json"⟩, fun _ => .error ⟨.genericError, "fixer down"⟩⟩

/-- A primary backend whose every query raises. -/
def alwaysFailBackend : Backend := ⟨fun _ _ => .error ⟨.genericError, "backend down"⟩⟩

/-! ## String helpers for the non-emptiness proofs -/

/-- A string with non-empty character data is not the empty string. -/
theorem str_ne_empty_of_data (s : String) (h : s.data ≠ []) : s ≠ "" := by
  intro he
  exact h (by rw [he])

/-- Appending to a string with non-empty data keeps the data
non-empty. -/
theorem data_append_ne_nil (s t : String) (h : s.data ≠ []) : (s ++ t).data ≠ [] := by
  rw [String.data_append]
  intro h2
  exact h (List.append_eq_nil.mp h2).1

/-! ## C2: describe_actions key-set and non-emptiness -/

/-- Every description produced by `_create_axial_description` is a
non-empty string, for every move type, move value and mapper state. -/
theorem createAxialDescription_ne_empty (m : HexAxialMapper) (a : Action) (i : Nat) :
    createAxialDescription m a i ≠ "" := by
  obtain ⟨t, v⟩ := a
  apply str_ne_empty_of_data
  cases t <;> simp only [createAxialDescription] <;>
    (try split) <;> (try split) <;>
    (repeat (first | apply data_append_ne_nil | decide))

/-- The indices produced by the description loop starting at `i` are
exactly `i, i+1, ...`. -/
theorem describeActionsLoop_fst (m : HexAxialMapper) (actions : List Action) :
    ∀ i, (describeActionsLoop m i actions).map Prod.fst = List.range' i actions.length := by
  induction actions with
  | nil => intro i; rfl
  | cons a rest ih =>
      intro i
      simp [describeActionsLoop, List.range', ih]

/-- Every pair of the description loop has a non-empty description. -/
theorem describeActionsLoop_ne_empty (m : HexAxialMapper) (actions : List Action) :
    ∀ i, ∀ p ∈ describeActionsLoop m i actions, p.2 ≠ "" := by
  induction actions with
  | nil => intro i p hp; cases hp
  | cons a rest ih =>
      intro i p hp
      rcases List.mem_cons.mp hp with hp2 | hp2
      · rw [hp2]
        exact createAxialDescription_ne_empty m a i
      · exact ih (i + 1) p hp2

/-- C2: for every mapper state and every input move list (malformed or
unknown values included), `describe_actions` returns a mapping whose
key set is exactly `{0, ..., len(moves)-1}` in order, every index gets
exactly one non-empty description string, and the function is total
(it never raises to the caller). -/
theorem c2_describe_actions_total (m : HexAxialMapper) (actions : List Action) :
    ((describeActions m actions).1.map Prod.fst = List.range actions.length) ∧
    (∀ p ∈ (describeActions m actions).1, p.2 ≠ "") := by
  constructor
  · rw [List.range_eq_range']
    exact describeActionsLoop_fst _ actions 0
  · exact describeActionsLoop_ne_empty _ actions 0

/-! ## C6: the maritime-trade description -/

/-- The maritime-trade move of the specification scenario:
value `(4, 0, 0, 0, 0, "ORE")`. -/
def maritimeAction : Action :=
  ⟨.MARITIME_TRADE, .tup [.int 4, .int 0, .int 0, .int 0, .int 0, .str "ORE"]⟩

/-- C6 counterexample: the Action Describer (`describe_actions`, which
dispatches through `_create_axial_description`) renders the scenario
maritime-trade move as the generic string `"Maritime Trade"`, which
contains neither `"4 WOOD"` nor `"for 1 ORE"` nor `"4:1"`. -/
theorem c6_counterexample :
    (describeActions emptyMapper [maritimeAction]).1 = [(0, "Maritime Trade")] ∧
    ¬ (containsStr (((describeActions emptyMapper [maritimeAction]).1.lookup 0).getD "")
          "4 WOOD" ∧
       containsStr (((describeActions emptyMapper [maritimeAction]).1.lookup 0).getD "")
          "for 1 ORE" ∧
       containsStr (((describeActions emptyMapper [maritimeAction]).1.lookup 0).getD "")
          "4:1") := by
  constructor
  · rfl
  · intro h
    exact absurd h.1 (by decide)

/-- C6 amended: the orphaned helper `_format_maritime_trade` does
produce a description containing `"4 WOOD"`, `"for 1 ORE"` and `"4:1"`
for the scenario value, but `describe_actions` never calls it — the
dispatch renders every maritime-trade move as `"Maritime Trade"`,
independent of the mapper and the index. -/
theorem c6_amended :
    (∀ (m : HexAxialMapper) (i : Nat), createAxialDescription m maritimeAction i = "Maritime Trade") ∧
    (describeActions emptyMapper [maritimeAction]).1 = [(0, "Maritime Trade")] ∧
    ∃ s, formatMaritimeTrade maritimeAction.value = .ok s ∧
      containsStr s "4 WOOD" ∧ containsStr s "for 1 ORE" ∧ containsStr s "4:1" := by
  refine ⟨fun m i => rfl, rfl, "Trade 4 WOOD for 1 ORE at 4:1 rate", rfl, ?_, ?_, ?_⟩ <;> decide

/-! ## C7 and C8: Decision Agent shortcut and fallback -/

/-- C7: a singleton move list holding a roll or end-turn move is
returned immediately by `decide`: zero backend calls, the decision
counter incremented, and no decision time recorded (all other
statistics, `total_decision_time` included, unchanged). -/
theorem c7_trivial_shortcut (ctx : ParseCtx) (backend : Backend) (m : HexAxialMapper)
    (maxRetries : Nat) (elapsed : ℚ) (gs : GState) (color : Color) (a : Action)
    (stats : Stats) (h : a.actionType = .ROLL ∨ a.actionType = .END_TURN) :
    LLMPlayer.decide ctx backend m maxRetries elapsed gs color [a] stats =
      (.ok (a, { stats with totalDecisions := stats.totalDecisions + 1 }), 0) := by
  simp [LLMPlayer.decide, h]

/-- C7 witness: a concrete singleton roll list through `decide`. -/
theorem c7_trivial_shortcut_witness :
    ((⟨.ROLL, .none⟩ : Action).actionType = .ROLL ∨
      (⟨.ROLL, .none⟩ : Action).actionType = .END_TURN) ∧
    LLMPlayer.decide failingParseCtx alwaysFailBackend emptyMapper 3 5 sampleState .RED
        [⟨.ROLL, .none⟩] initStats =
      (.ok ((⟨.ROLL, .none⟩ : Action),
         { initStats with totalDecisions := initStats.totalDecisions + 1 }), 0) :=
  ⟨Or.inl rfl,
    c7_trivial_shortcut failingParseCtx alwaysFailBackend emptyMapper 3 5 sampleState .RED
      ⟨.ROLL, .none⟩ initStats (Or.inl rfl)⟩

/-- C8: `_fallback_action` on an empty legal-move list raises
`RuntimeError` (propagated to the caller) instead of returning a move,
whatever the current statistics are. -/
theorem c8_fallback_raises_on_empty (stats : Stats) :
    fallbackAction [] stats = .error ⟨.runtimeError, "No actions supplied to fallback!"⟩ := rfl

/-! ## C1: the fallback guarantee of `decide` -/

/-- If every backend query raises, or every reply fails to parse, or
every parsed index is out of range for `actions`, then a single
attempt of the retry loop fails. -/
theorem attemptOnce_error (ctx : ParseCtx) (backend : Backend) (prompt : String)
    (actions : List Action) (callIdx : Nat)
    (hfail : (∀ p n, ∃ e, backend.query p n = .error e) ∨
             (∀ s2, ∃ e, parseLlmResponse ctx s2 = .error e) ∨
             (∀ s2 idx rsn, parseLlmResponse ctx s2 = .ok (idx, rsn) →
                ¬(0 ≤ idx ∧ idx < (actions.length : Int)))) :
    ∃ e, attemptOnce ctx backend prompt actions callIdx = .error e := by
  cases hq : backend.query prompt callIdx with
  | error e => exact ⟨e, by simp [attemptOnce, hq]⟩
  | ok s2 =>
      rcases hfail with h | h | h
      · obtain ⟨e, he⟩ := h prompt callIdx
        rw [hq] at he
        cases he
      · obtain ⟨e, he⟩ := h s2
        exact ⟨e, by simp [attemptOnce, hq, he]⟩
      · cases hp : parseLlmResponse ctx s2 with
        | error e => exact ⟨e, by simp [attemptOnce, hq, hp]⟩
        | ok pr =>
            have hnot := h s2 pr.1 pr.2 (by rw [hp])
            exact ⟨⟨.valueError, "Invalid action index"⟩, by simp [attemptOnce, hq, hp, hnot]⟩

/-- When every attempt fails, the retry loop exhausts its budget,
returning an error with one backend call and one retry increment per
attempt. -/
theorem queryLlmWithRetryGo_error (ctx : ParseCtx) (backend : Backend) (prompt : String)
    (actions : List Action)
    (hatt : ∀ c, ∃ e, attemptOnce ctx backend prompt actions c = .error e) :
    ∀ k calls retries, ∃ e,
      queryLlmWithRetryGo ctx backend prompt actions k calls retries =
        (.error e, calls + k, retries + k) := by
  intro k
  induction k with
  | zero =>
      intro calls retries
      exact ⟨⟨.genericError, "All retry attempts failed."⟩, by simp [queryLlmWithRetryGo]⟩
  | succ k ih =>
      intro calls retries
      obtain ⟨e, he⟩ := hatt calls
      obtain ⟨e2, he2⟩ := ih (calls + 1) (retries + 1)
      refine ⟨e2, ?_⟩
      simp only [queryLlmWithRetryGo, he]
      rw [he2]
      simp [Prod.ext_iff]
      omega

/-- Under total attempt failure, the try-block of `decide` ends in the
fallback path with the failure statistics update applied. -/
theorem decideNormal_fallback (ctx : ParseCtx) (backend : Backend) (m : HexAxialMapper)
    (maxRetries : Nat) (elapsed : ℚ) (gs : GState) (color : Color)
    (actions : List Action) (stats : Stats)
    (hatt : ∀ prompt c, ∃ e, attemptOnce ctx backend prompt actions c = .error e) :
    decideNormal ctx backend m maxRetries elapsed gs color actions stats =
      (fallbackAction actions
        (updateStats elapsed false { stats with retryCount := stats.retryCount + maxRetries }),
       maxRetries) := by
  unfold decideNormal
  obtain ⟨e, he⟩ := queryLlmWithRetryGo_error ctx backend
    (createDecisionPrompt (extractState gs color)
      (getReadableActionDescriptions (describeActions m actions).2 actions))
    actions (hatt _) maxRetries 0 0
  simp only [queryLlmWithRetry]
  rw [he]
  simp

/-- C1: for every non-empty legal-move list, if every backend query
raises (or every reply fails to parse, or every parsed index is out of
range), `decide` still returns a move — specifically the first move of
the list — and never propagates an exception to its caller. -/
theorem c1_always_fallback (ctx : ParseCtx) (backend : Backend) (m : HexAxialMapper)
    (maxRetries : Nat) (elapsed : ℚ) (gs : GState) (color : Color)
    (playableActions : List Action) (stats0 : Stats) (hne : playableActions ≠ [])
    (hfail : (∀ p n, ∃ e, backend.query p n = .error e) ∨
             (∀ s2, ∃ e, parseLlmResponse ctx s2 = .error e) ∨
             (∀ s2 idx rsn, parseLlmResponse ctx s2 = .ok (idx, rsn) →
                ¬(0 ≤ idx ∧ idx < (playableActions.length : Int)))) :
    ((LLMPlayer.decide ctx backend m maxRetries elapsed gs color playableActions stats0).1.toOption.map
        Prod.fst) = some (playableActions.head hne) := by
  have hatt : ∀ prompt c, ∃ e, attemptOnce ctx backend prompt playableActions c = .error e :=
    fun prompt c => attemptOnce_error ctx backend prompt playableActions c hfail
  match playableActions, hne with
  | a :: rest, _ =>
      cases rest with
      | nil =>
          by_cases hsc : a.actionType = .ROLL ∨ a.actionType = .END_TURN
          · simp only [LLMPlayer.decide, if_pos hsc, List.head_cons, Except.toOption, Option.map_some]
            rfl
          · have hd := decideNormal_fallback ctx backend m maxRetries elapsed gs color [a]
              { stats0 with totalDecisions := stats0.totalDecisions + 1 } hatt
            simp only [LLMPlayer.decide, if_neg hsc, List.head_cons]
            rw [hd]
            rfl
      | cons b bs =>
          have hd := decideNormal_fallback ctx backend m maxRetries elapsed gs color
            (a :: b :: bs) { stats0 with totalDecisions := stats0.totalDecisions + 1 } hatt
          simp only [LLMPlayer.decide, List.head_cons]
          rw [hd]
          rfl

/-- C1 witness: a concrete two-element move list against a backend
whose every call raises; `decide` returns the first move. -/
theorem c1_always_fallback_witness :
    ([(⟨.BUILD_SETTLEMENT, .int 7⟩ : Action), ⟨.END_TURN, .none⟩] ≠ ([] : List Action)) ∧
    ((LLMPlayer.decide failingParseCtx alwaysFailBackend emptyMapper 3 5 sampleState .RED
          [⟨.BUILD_SETTLEMENT, .int 7⟩, ⟨.END_TURN, .none⟩] initStats).1.toOption.map
        Prod.fst) = some (⟨.BUILD_SETTLEMENT, .int 7⟩ : Action) :=
  ⟨List.cons_ne_nil _ _,
    c1_always_fallback failingParseCtx alwaysFailBackend emptyMapper 3 5 sampleState .RED
      [⟨.BUILD_SETTLEMENT, .int 7⟩, ⟨.END_TURN, .none⟩] initStats (List.cons_ne_nil _ _)
      (Or.inl (fun _ _ => ⟨⟨.genericError, "backend down"⟩, rfl⟩))⟩

/-! ## C4: the fractional-win invariant -/

/-- Summing an indicator-weighted map equals the match count times the
weight. -/
theorem sum_map_ite_count {α : Type} (ps : List α) (P : α → Prop) [DecidablePred P] (c : ℚ) :
    (ps.map (fun p => if P p then c else 0)).sum =
      (ps.countP (fun p => Decidable.decide (P p))) * c := by
  induction ps with
  | nil => simp
  | cons a t ih =>
      by_cases h : P a <;> simp [List.countP_cons, h, ih] <;> push_cast <;> ring

/-- The tie contributions of `_analyze_tournament_results` sum to `1`
for any non-empty tie list: `k` increments of `1/k` each. -/
theorem winContribs_tie_sum (l : List String) (hl : l ≠ []) :
    ((l.map (fun p => (p, (1 : ℚ) / l.length))).map Prod.snd).sum = 1 := by
  have h2 : (l.map (fun p => (p, (1 : ℚ) / l.length))).map Prod.snd =
      List.replicate l.length ((1 : ℚ) / l.length) := by
    simp [List.map_map, List.eq_replicate]
  rw [h2, List.sum_replicate, nsmul_eq_mul]
  have h3 : (l.length : ℚ) ≠ 0 := Nat.cast_ne_zero.mpr (by simpa using hl)
  field_simp

/-- C4: for any single game result, the win increments that the two
aggregation functions contribute sum to exactly `1` when a winner
exists (a single winner contributes `1`; a tie among the `k` players of
a non-empty tie list contributes `1/k` to each) and to `0` when no
winner exists.  For the per-player statistics the count hypotheses say
the winner names occur exactly once among the players of the game, which is
how `_play_single_game` builds results. -/
theorem c4_fractional_wins (r : GameResult) :
    (r.winner = Option.none →
      ((winContribs r.winner).map Prod.snd).sum = 0 ∧
      (r.players.map (fun p => statsWinIncrement r.winner p.name)).sum = 0) ∧
    (∀ wi, r.winner = some wi →
      (wi.isTie = false →
        ∀ snm, wi.name = .str snm →
          ((winContribs r.winner).map Prod.snd).sum = 1 ∧
          (r.players.countP (fun p => Decidable.decide (p.name = snm)) = 1 →
            (r.players.map (fun p => statsWinIncrement r.winner p.name)).sum = 1)) ∧
      (wi.isTie = true →
        ∀ l, wi.name = .list l → l ≠ [] →
          ((winContribs r.winner).map Prod.snd).sum = 1 ∧
          (r.players.countP (fun p => Decidable.decide (p.name ∈ l)) = l.length →
            (r.players.map (fun p => statsWinIncrement r.winner p.name)).sum = 1))) := by
  constructor
  · intro hw
    constructor
    · rw [hw]; rfl
    · rw [hw]
      simp [statsWinIncrement]
  · intro wi hw
    constructor
    · intro htie snm hname
      constructor
      · rw [hw]
        simp [winContribs, htie, hname]
      · intro hcount
        rw [hw]
        have hfun : (fun p : PlayerInfo => statsWinIncrement (some wi) p.name) =
            (fun p : PlayerInfo => if p.name = snm then (1 : ℚ) else 0) := by
          funext p
          simp only [statsWinIncrement, htie, hname]
          rcases eq_or_ne p.name snm with h | h
          · simp [h]
          · simp [h, Ne.symm h]
        rw [hfun, sum_map_ite_count r.players (fun p => p.name = snm) 1, hcount]
        norm_num
    · intro htie l hname hl
      constructor
      · rw [hw]
        simpa [winContribs, htie, hname] using winContribs_tie_sum l hl
      · intro hcount
        rw [hw]
        have hfun : (fun p : PlayerInfo => statsWinIncrement (some wi) p.name) =
            (fun p : PlayerInfo => if p.name ∈ l then (1 : ℚ) / l.length else 0) := by
          funext p
          simp [statsWinIncrement, htie, hname]
        rw [hfun, sum_map_ite_count r.players (fun p => p.name ∈ l) ((1 : ℚ) / l.length), hcount]
        have h3 : (l.length : ℚ) ≠ 0 := Nat.cast_ne_zero.mpr (by simpa using hl)
        field_simp

/-- A concrete tied two-player result used by the C4 witness. -/
def tieGame : GameResult :=
  ⟨[⟨"A", "RED"⟩, ⟨"B", "BLUE"⟩], some ⟨.list ["A", "B"], true⟩, 0⟩

/-- C4 witness: a two-way tie contributes `1/2 + 1/2 = 1` through both
aggregation functions. -/
theorem c4_fractional_wins_witness :
    ((winContribs tieGame.winner).map Prod.snd).sum = 1 ∧
    (tieGame.players.map (fun p => statsWinIncrement tieGame.winner p.name)).sum = 1 := by
  have h := ((c4_fractional_wins tieGame).2 ⟨.list ["A", "B"], true⟩ rfl).2 rfl
    ["A", "B"] rfl (by decide)
  exact ⟨h.1, h.2 (by decide)⟩

/-! ## C3: the opponent information-hiding contract -/

/-- A state where the `BLUE` opponent holds one hidden victory-point
development card: actual VP `3`, public VP `2`. -/
def leakState : GState :=
  { sampleState with
    playerStates := fun c =>
      if c = .BLUE then
        { victoryPoints := 3, publicVictoryPoints := 2, resources := fun _ => 0
          devInHand := fun d => if d = .VICTORY_POINT then 1 else 0
          devPlayedThisTurn := fun _ => 0, hasRolled := false
          settlements := [], cities := [], roads := [] }
      else sampleState.playerStates c }

/-- C3 as claimed: every opponent entry carries no per-resource-type
key, no per-development-card key, and only the PUBLIC
victory points of the opponent in its victory-point field. -/
def opponentsPublicOnly (s : GState) (cur : Color) : Prop :=
  ∀ c ∈ allColors, c ≠ cur →
    jlookup (extractPlayerState s c false) "resources" = Option.none ∧
    jlookup (extractPlayerState s c false) "development_cards" = Option.none ∧
    jlookup (extractPlayerState s c false) "victory_points" =
      some (.num ((s.playerStates c).publicVictoryPoints))

/-- C3 counterexample: when `BLUE` holds a hidden victory-point card,
the opponent entry serialized for `RED` carries `victory_points = 3`
while the public victory points of `BLUE` are `2` — the snapshot exposes the
actual total, which reveals the hidden card. -/
theorem c3_counterexample : ¬ opponentsPublicOnly leakState .RED := by
  intro h
  have h2 := (h .BLUE (by simp [allColors]) (by simp)).2.2
  have h3 : jlookup (extractPlayerState leakState .BLUE false) "victory_points" =
      some (.num ((3 : Int) : ℚ)) := rfl
  have h4 : (leakState.playerStates Color.BLUE).publicVictoryPoints = 2 := rfl
  rw [h3, h4] at h2
  simp only [Option.some.injEq, Json.num.injEq] at h2
  norm_num at h2

/-- C3 amended: opponent entries (the `detailed=False` view used for
every non-deciding color) contain no per-resource-type breakdown and
no per-development-card breakdown — only the aggregate resource and
development-card counts — but their `victory_points` field carries the
ACTUAL victory-point total of the opponent (`VICTORY_POINTS`), which exceeds
the public total whenever hidden victory-point cards are held, next to
the separate `public_victory_points` field. -/
theorem c3_amended (s : GState) (cur : Color) :
    extractOpponentsState s cur =
      (allColors.filter (fun c => c ≠ cur)).map (fun c => extractPlayerState s c false) ∧
    ∀ c, jlookup (extractPlayerState s c false) "resources" = Option.none ∧
      jlookup (extractPlayerState s c false) "development_cards" = Option.none ∧
      jlookup (extractPlayerState s c false) "victory_points" =
        some (.num ((s.playerStates c).victoryPoints)) ∧
      jlookup (extractPlayerState s c false) "public_victory_points" =
        some (.num ((s.playerStates c).publicVictoryPoints)) ∧
      jlookup (extractPlayerState s c false) "resource_cards_count" =
        some (.num (playerNumResourceCards (s.playerStates c))) ∧
      jlookup (extractPlayerState s c false) "development_cards_count" =
        some (.num (devCardsInHandTotal (s.playerStates c))) :=
  ⟨rfl, fun _ => ⟨rfl, rfl, rfl, rfl, rfl, rfl⟩⟩

/-! ## C9: no duplicate intersections -/

/-- The `_generate_intersections` invariant: the sorted tile tuple of
every stored intersection is in the dedup set, and no two stored
intersections share a sorted tile tuple. -/
def intersInvariant (st : IntersectGenState) : Prop :=
  (∀ p ∈ st.inters, sortPairs p.2.tiles ∈ st.generated) ∧
  st.inters.Pairwise (fun a b => sortPairs a.2.tiles ≠ sortPairs b.2.tiles)

/-- The conditional insert preserves the invariant: a new intersection
is only allocated for a sorted tile tuple absent from the dedup set. -/
theorem insertIntersection_inv (st : IntersectGenState) (ct : List (Int × Int))
    (cn : List String) (h : intersInvariant st) :
    intersInvariant (insertIntersection st ct cn) := by
  unfold insertIntersection
  by_cases hk : sortPairs ct ∈ st.generated
  · simpa [hk] using h
  · simp only [hk, if_false]
    constructor
    · intro p hp
      rcases List.mem_append.mp hp with hp2 | hp2
      · exact List.mem_cons_of_mem _ (h.1 p hp2)
      · have hp3 : p = (mkIntersectionId st.nextId,
            (⟨mkIntersectionId st.nextId, ct, cn, [], []⟩ : IntersectionInfo)) := by
          simpa using hp2
        rw [hp3]
        exact List.mem_cons_self _ _
    · rw [List.pairwise_append]
      refine ⟨h.2, List.pairwise_singleton _ _, ?_⟩
      intro a ha b hb
      have hb2 : b = (mkIntersectionId st.nextId,
          (⟨mkIntersectionId st.nextId, ct, cn, [], []⟩ : IntersectionInfo)) := by
        simpa using hb
      rw [hb2]
      intro he
      exact hk (he ▸ h.1 a ha)

/-- A fold preserves any invariant its step preserves. -/
theorem foldl_preserves {σ α : Type} (P : σ → Prop) (f : σ → α → σ)
    (hstep : ∀ s a, P s → P (f s a)) :
    ∀ (l : List α) (s : σ), P s → P (l.foldl f s) := by
  intro l
  induction l with
  | nil => exact fun s h => h
  | cons a t ih => exact fun s h => ih (f s a) (hstep s a h)

/-- The first corner pass preserves the invariant. -/
theorem firstPassTile_inv (coord : Int × Int) (st : IntersectGenState)
    (h : intersInvariant st) : intersInvariant (firstPassTile coord st) := by
  unfold firstPassTile
  exact foldl_preserves intersInvariant _
    (fun s dirs hs => insertIntersection_inv _ _ _ hs) cornerDirections st h

/-- The boundary-intersection pass preserves the invariant. -/
theorem secondPassTile_inv (coord : Int × Int) (st : IntersectGenState)
    (h : intersInvariant st) : intersInvariant (secondPassTile coord st) := by
  unfold secondPassTile
  dsimp only
  split
  · refine foldl_preserves intersInvariant _ ?_ (List.range 6) st h
    intro s cornerIdx hs
    dsimp only
    split
    · exact insertIntersection_inv _ _ _ hs
    · exact hs
  · exact h

/-- First-pass folding over the tile list preserves the invariant. -/
theorem foldlFirstPass_inv (l : List ((Int × Int) × TileInfo)) :
    ∀ s, intersInvariant s → intersInvariant (l.foldl (fun s e => firstPassTile e.1 s) s) := by
  induction l with
  | nil => exact fun s h => h
  | cons a t ih => exact fun s h => ih _ (firstPassTile_inv a.1 s h)

/-- Second-pass folding over the tile list preserves the invariant. -/
theorem foldlSecondPass_inv (l : List ((Int × Int) × TileInfo)) :
    ∀ s, intersInvariant s → intersInvariant (l.foldl (fun s e => secondPassTile e.1 s) s) := by
  induction l with
  | nil => exact fun s h => h
  | cons a t ih => exact fun s h => ih _ (secondPassTile_inv a.1 s h)

/-- After both passes of `_generate_intersections`, no two generated
intersections share a sorted tile tuple. -/
theorem generateIntersections_inv (tiles0 : List ((Int × Int) × TileInfo)) :
    intersInvariant (generateIntersections tiles0) := by
  unfold generateIntersections
  dsimp only
  exact foldlSecondPass_inv tiles0 _
    (foldlFirstPass_inv tiles0 _
      ⟨fun p hp => absurd hp (List.not_mem_nil p), List.Pairwise.nil⟩)

/-- The sorted-tile-tuple distinctness of the intersections dict, as a
predicate preserved by the edge generation pass. -/
def intersDistinct (inters : List (String × IntersectionInfo)) : Prop :=
  inters.Pairwise (fun a b => sortPairs a.2.tiles ≠ sortPairs b.2.tiles)

/-- Embedding of `_generate_edges` only appends connected-edge ids to
intersections; their tile sets are untouched, so distinctness is
preserved. -/
theorem edgeStep_distinct (coord nbCoord : Int × Int) (s : EdgeGenState)
    (h : intersDistinct s.inters) : intersDistinct (edgeStep coord nbCoord s).inters := by
  have htiles : ∀ (ids : List String) (eid : String) (p : String × IntersectionInfo),
      ((if p.1 ∈ ids then (p.1, { p.2 with connectedEdges := p.2.connectedEdges ++ [eid] })
        else p) : String × IntersectionInfo).2.tiles = p.2.tiles := by
    intro ids eid p
    split <;> rfl
  unfold edgeStep
  dsimp only
  split
  · split
    · exact h
    · dsimp only [intersDistinct]
      rw [List.pairwise_map]
      refine h.imp ?_
      intro a b hab
      rw [htiles, htiles]
      exact hab
  · exact h

/-- The inner neighbor loop of `_generate_edges` preserves
distinctness. -/
theorem foldlEdgeInner_distinct (coord : Int × Int) (nbs : List (Int × Int)) :
    ∀ s : EdgeGenState, intersDistinct s.inters →
      intersDistinct ((nbs.foldl (fun s2 nb => edgeStep coord nb s2) s).inters) := by
  induction nbs with
  | nil => exact fun s h => h
  | cons nb t ih => exact fun s h => ih _ (edgeStep_distinct coord nb s h)

/-- The outer tile loop of `_generate_edges` preserves distinctness. -/
theorem foldlEdgeOuter_distinct (l : List ((Int × Int) × TileInfo)) :
    ∀ s : EdgeGenState, intersDistinct s.inters →
      intersDistinct ((l.foldl
        (fun s e => e.2.neighbors.foldl (fun s2 nb => edgeStep e.1 nb s2) s) s).inters) := by
  induction l with
  | nil => exact fun s h => h
  | cons e t ih => exact fun s h => ih _ (foldlEdgeInner_distinct e.1 e.2.neighbors s h)

/-- C9: after `register_tiles` completes on any input tile list and any
prior mapper state, no two distinct generated intersections — boundary
intersections from the second pass included — have the identical
sorted tuple of touching tile coordinates; each physical intersection
receives exactly one id. -/
theorem c9_no_duplicate_intersections (m : HexAxialMapper) (tilesData : List RawTile) :
    ((registerTiles m tilesData).intersections).Pairwise
      (fun a b => sortPairs a.2.tiles ≠ sortPairs b.2.tiles) := by
  unfold registerTiles generateEdges
  dsimp only
  exact foldlEdgeOuter_distinct _ _
    ((generateIntersections_inv (registerTilesFirstPass tilesData)).2)

/-! ## C10: the fixed ELO roster -/

/-- Association-list lookup misses keys outside the key list. -/
theorem lookup_none_of_not_mem {β : Type} (r : List (String × β)) (k : String)
    (h : k ∉ r.map Prod.fst) : r.lookup k = Option.none := by
  induction r with
  | nil => rfl
  | cons a t ih =>
      obtain ⟨ka, va⟩ := a
      simp only [List.map_cons, List.mem_cons, not_or] at h
      simp [List.lookup, beq_eq_false_iff_ne.mpr h.1, ih h.2]

/-- Association-list lookup hits keys inside the key list. -/
theorem lookup_some_of_mem {β : Type} (r : List (String × β)) (k : String)
    (h : k ∈ r.map Prod.fst) : ∃ v, r.lookup k = some v := by
  induction r with
  | nil => cases h
  | cons a t ih =>
      obtain ⟨ka, va⟩ := a
      by_cases hk : k = ka
      · exact ⟨va, by simp [List.lookup, hk]⟩
      · simp only [List.map_cons, List.mem_cons] at h
        rcases h with h | h
        · exact absurd h hk
        · obtain ⟨v, hv⟩ := ih h
          exact ⟨v, by simp [List.lookup, beq_eq_false_iff_ne.mpr hk, hv]⟩

/-- Updating a rating value never changes the key list. -/
theorem ratingsSet_keys (r : List (String × ℝ)) (k : String) (v : ℝ) :
    (ratingsSet r k v).map Prod.fst = r.map Prod.fst := by
  unfold ratingsSet
  rw [List.map_map]
  refine List.map_congr_left ?_
  intro e _
  by_cases h : e.1 = k <;> simp [h]

/-- Embedding of `ratings[k]` raises `KeyError` exactly for missing keys. -/
theorem ratingsGet_err (r : List (String × ℝ)) (k : String)
    (h : k ∉ r.map Prod.fst) : ratingsGet r k = .error ⟨.keyError, k⟩ := by
  unfold ratingsGet
  rw [lookup_none_of_not_mem r k h]

/-- Embedding of `ratings[k]` succeeds for present keys. -/
theorem ratingsGet_ok (r : List (String × ℝ)) (k : String)
    (h : k ∈ r.map Prod.fst) : ∃ v, ratingsGet r k = .ok v := by
  obtain ⟨v, hv⟩ := lookup_some_of_mem r k h
  exact ⟨v, by unfold ratingsGet; rw [hv]⟩

/-- Every error of `ratingsGet` is a `KeyError`. -/
theorem ratingsGet_err_kind (r : List (String × ℝ)) (k : String) (e : PyErr)
    (h : ratingsGet r k = .error e) : e.kind = .keyError := by
  unfold ratingsGet at h
  split at h
  · cases h
  · simp only [Except.error.injEq] at h
    rw [← h]

/-- A successful pair update preserves the key list. -/
theorem processPair_keys (wi : WinnerInfo) (r : List (String × ℝ)) (p1 p2 : String)
    (r2 : List (String × ℝ)) (h : processPair wi r p1 p2 = .ok r2) :
    r2.map Prod.fst = r.map Prod.fst := by
  unfold processPair at h
  split at h
  · cases h
  · split at h
    · cases h
    · split at h
      · cases h
      · simp only [Except.ok.injEq] at h
        rw [← h]
        exact ratingsSet_keys r p1 _

/-- Every error of a pair update is a `KeyError`. -/
theorem processPair_err_kind (wi : WinnerInfo) (r : List (String × ℝ)) (p1 p2 : String)
    (e : PyErr) (h : processPair wi r p1 p2 = .error e) : e.kind = .keyError := by
  unfold processPair at h
  split at h
  case h_1 e2 he =>
      simp only [Except.error.injEq] at h
      exact h ▸ ratingsGet_err_kind r p2 e2 he
  case h_2 =>
      split at h
      case h_1 e2 he =>
          simp only [Except.error.injEq] at h
          exact h ▸ ratingsGet_err_kind r p1 e2 he
      case h_2 =>
          split at h
          case h_1 e2 he => exact Except.noConfusion he
          case h_2 => cases h

/-- A pair update over two present names succeeds and preserves
keys. -/
theorem processPair_ok (wi : WinnerInfo) (r : List (String × ℝ)) (p1 p2 : String)
    (h1 : p1 ∈ r.map Prod.fst) (h2 : p2 ∈ r.map Prod.fst) :
    ∃ r2, processPair wi r p1 p2 = .ok r2 ∧ r2.map Prod.fst = r.map Prod.fst := by
  obtain ⟨v2, hv2⟩ := ratingsGet_ok r p2 h2
  obtain ⟨v1, hv1⟩ := ratingsGet_ok r p1 h1
  refine ⟨ratingsSet r p1
      (v1 + 32 * (eloActualScore wi p1 - 1 / (1 + (10 : ℝ) ^ ((v2 - v1) / 400)))),
    ?_, ratingsSet_keys r p1 _⟩
  simp [processPair, hv2, hv1]

/-- A pair update involving a missing name raises `KeyError`. -/
theorem processPair_err (wi : WinnerInfo) (r : List (String × ℝ)) (p1 p2 : String)
    (h : p1 ∉ r.map Prod.fst ∨ p2 ∉ r.map Prod.fst) :
    ∃ e, processPair wi r p1 p2 = .error e ∧ e.kind = .keyError := by
  by_cases h2 : p2 ∈ r.map Prod.fst
  · obtain ⟨v2, hv2⟩ := ratingsGet_ok r p2 h2
    rcases h with h1 | h1
    · exact ⟨⟨.keyError, p1⟩, by simp [processPair, hv2, ratingsGet_err r p1 h1], rfl⟩
    · exact absurd h2 h1
  · exact ⟨⟨.keyError, p2⟩, by simp [processPair, ratingsGet_err r p2 h2], rfl⟩

/-- A pair loop over present names succeeds and preserves keys. -/
theorem processPairs_ok (wi : WinnerInfo) (ps : List (String × String)) :
    ∀ r, (∀ p ∈ ps, p.1 ∈ r.map Prod.fst ∧ p.2 ∈ r.map Prod.fst) →
      ∃ r2, processPairs wi ps r = .ok r2 ∧ r2.map Prod.fst = r.map Prod.fst := by
  induction ps with
  | nil => exact fun r _ => ⟨r, rfl, rfl⟩
  | cons q t ih =>
      intro r hmem
      obtain ⟨hq1, hq2⟩ := hmem q (List.mem_cons_self q t)
      obtain ⟨r2, hr2, hkeys⟩ := processPair_ok wi r q.1 q.2 hq1 hq2
      obtain ⟨r3, hr3, hkeys3⟩ := ih r2 (fun p hp => by
        rw [hkeys]
        exact hmem p (List.mem_cons_of_mem q hp))
      exact ⟨r3, by simp [processPairs, hr2, hr3], by rw [hkeys3, hkeys]⟩

/-- A successful pair loop preserves the key list. -/
theorem processPairs_keys (wi : WinnerInfo) (ps : List (String × String)) :
    ∀ r r2, processPairs wi ps r = .ok r2 → r2.map Prod.fst = r.map Prod.fst := by
  induction ps with
  | nil =>
      intro r r2 h
      simp only [processPairs, Except.ok.injEq] at h
      rw [← h]
  | cons q t ih =>
      intro r r2 h
      unfold processPairs at h
      split at h
      case h_1 rr hrr => exact (ih _ r2 h).trans (processPair_keys wi r q.1 q.2 rr hrr)
      case h_2 => cases h

/-- Every error of a pair loop is a `KeyError`. -/
theorem processPairs_err_kind (wi : WinnerInfo) (ps : List (String × String)) :
    ∀ r e, processPairs wi ps r = .error e → e.kind = .keyError := by
  induction ps with
  | nil => intro r e h; cases h
  | cons q t ih =>
      intro r e h
      unfold processPairs at h
      split at h
      case h_1 rr hrr => exact ih _ e h
      case h_2 e2 he =>
          simp only [Except.error.injEq] at h
          exact h ▸ processPair_err_kind wi r q.1 q.2 e2 he

/-- A pair loop containing a pair with a missing name raises
`KeyError`. -/
theorem processPairs_err (wi : WinnerInfo) (ps : List (String × String)) :
    ∀ r, (∃ p ∈ ps, p.1 ∉ r.map Prod.fst ∨ p.2 ∉ r.map Prod.fst) →
      ∃ e, processPairs wi ps r = .error e ∧ e.kind = .keyError := by
  induction ps with
  | nil =>
      intro r h
      obtain ⟨p, hp, _⟩ := h
      cases hp
  | cons q t ih =>
      intro r h
      obtain ⟨p, hp, hbad⟩ := h
      rcases List.mem_cons.mp hp with hpq | hpt
      · subst hpq
        obtain ⟨e, he, hek⟩ := processPair_err wi r p.1 p.2 hbad
        exact ⟨e, by simp [processPairs, he], hek⟩
      · by_cases hq : q.1 ∈ r.map Prod.fst ∧ q.2 ∈ r.map Prod.fst
        · obtain ⟨r2, hr2, hkeys⟩ := processPair_ok wi r q.1 q.2 hq.1 hq.2
          obtain ⟨e, he, hek⟩ := ih r2 ⟨p, hpt, by rw [hkeys]; exact hbad⟩
          exact ⟨e, by simp [processPairs, hr2, he], hek⟩
        · rw [not_and_or] at hq
          obtain ⟨e, he, hek⟩ := processPair_err wi r q.1 q.2 hq
          exact ⟨e, by simp [processPairs, he], hek⟩

/-- Both components of every ordered pair are game players. -/
theorem orderedPairs_mem (players : List String) (p : String × String)
    (hp : p ∈ orderedPairs players) : p.1 ∈ players ∧ p.2 ∈ players := by
  unfold orderedPairs at hp
  simp only [List.mem_flatten, List.mem_map, List.mem_filterMap] at hp
  obtain ⟨l, ⟨ip, hip, hl⟩, hpl⟩ := hp
  rw [← hl] at hpl
  simp only [List.mem_filterMap] at hpl
  obtain ⟨jp, hjp, hf⟩ := hpl
  obtain ⟨i, a⟩ := ip
  obtain ⟨j, b⟩ := jp
  have ha : a ∈ players := List.get?_mem (List.mk_mem_enum_iff_get?.mp hip)
  have hb : b ∈ players := List.get?_mem (List.mk_mem_enum_iff_get?.mp hjp)
  by_cases hij : i ≠ j
  · rw [if_pos hij] at hf
    simp only [Option.some.injEq] at hf
    rw [← hf]
    exact ⟨ha, hb⟩
  · rw [if_neg hij] at hf
    cases hf

/-- Conversely, any two distinct positions yield an ordered pair. -/
theorem orderedPairs_intro (players : List String) (i j : Nat) (x y : String)
    (hij : i ≠ j) (hi : players.get? i = some x) (hj : players.get? j = some y) :
    (x, y) ∈ orderedPairs players := by
  unfold orderedPairs
  simp only [List.mem_flatten, List.mem_map, List.mem_filterMap]
  refine ⟨_, ⟨(i, x), List.mk_mem_enum_iff_get?.mpr hi, rfl⟩, ?_⟩
  rw [List.mem_filterMap]
  exact ⟨(j, y), List.mk_mem_enum_iff_get?.mpr hj, by simp [hij]⟩

/-- A game list whose winner-games only name present players folds
through successfully, keys preserved. -/
theorem processGames_ok (games : List GameResult) :
    ∀ r, (∀ g ∈ games, ∀ nm ∈ g.players.map PlayerInfo.name, nm ∈ r.map Prod.fst) →
      ∃ r2, processGames games r = .ok r2 ∧ r2.map Prod.fst = r.map Prod.fst := by
  induction games with
  | nil => exact fun r _ => ⟨r, rfl, rfl⟩
  | cons g t ih =>
      intro r hmem
      cases hw : g.winner with
      | none =>
          obtain ⟨r3, hr3, hkeys3⟩ := ih r (fun g2 hg2 => hmem g2 (List.mem_cons_of_mem g hg2))
          exact ⟨r3, by simp [processGames, processGame, hw, hr3], hkeys3⟩
      | some wi =>
          have hpairs : ∀ p ∈ orderedPairs (g.players.map PlayerInfo.name),
              p.1 ∈ r.map Prod.fst ∧ p.2 ∈ r.map Prod.fst := by
            intro p hp
            obtain ⟨h1, h2⟩ := orderedPairs_mem _ p hp
            exact ⟨hmem g (List.mem_cons_self g t) p.1 h1,
                   hmem g (List.mem_cons_self g t) p.2 h2⟩
          obtain ⟨r2, hr2, hkeys⟩ := processPairs_ok wi _ r hpairs
          obtain ⟨r3, hr3, hkeys3⟩ := ih r2 (fun g2 hg2 nm hnm => by
            rw [hkeys]
            exact hmem g2 (List.mem_cons_of_mem g hg2) nm hnm)
          exact ⟨r3, by simp [processGames, processGame, hw, hr2, hr3],
            by rw [hkeys3, hkeys]⟩

/-- A game list containing a finished game that names a missing player
among at least two players raises `KeyError`. -/
theorem processGames_err (games : List GameResult) :
    ∀ r, (∃ g ∈ games, g.winner.isSome = true ∧ 2 ≤ g.players.length ∧
            ∃ nm ∈ g.players.map PlayerInfo.name, nm ∉ r.map Prod.fst) →
      ∃ e, processGames games r = .error e ∧ e.kind = .keyError := by
  induction games with
  | nil =>
      intro r h
      obtain ⟨g, hg, _⟩ := h
      cases hg
  | cons g t ih =>
      intro r h
      obtain ⟨g2, hg2, hwin, hlen, nm, hnm, hmiss⟩ := h
      rcases List.mem_cons.mp hg2 with hgg | hgt
      · subst hgg
        obtain ⟨wi, hw⟩ := Option.isSome_iff_exists.mp hwin
        obtain ⟨i, hi⟩ := List.get_of_mem hnm
        have hilen : i.1 < (g2.players.map PlayerInfo.name).length := i.2
        have hlen2 : 2 ≤ (g2.players.map PlayerInfo.name).length := by
          rw [List.length_map]
          exact hlen
        have hj : (if i.1 = 0 then 1 else 0) < (g2.players.map PlayerInfo.name).length := by
          split <;> omega
        have hij : i.1 ≠ (if i.1 = 0 then 1 else 0) := by split <;> omega
        have hpair := orderedPairs_intro (g2.players.map PlayerInfo.name) i.1
          (if i.1 = 0 then 1 else 0) nm
          ((g2.players.map PlayerInfo.name).get ⟨(if i.1 = 0 then 1 else 0), hj⟩)
          hij (by rw [List.get?_eq_get i.2, hi]) (List.get?_eq_get hj)
        obtain ⟨e, he, hek⟩ := processPairs_err wi _ r ⟨_, hpair, Or.inl hmiss⟩
        exact ⟨e, by simp [processGames, processGame, hw, he], hek⟩
      · cases hpg : processGame g r with
        | error e =>
            have hek : e.kind = .keyError := by
              unfold processGame at hpg
              split at hpg
              · cases hpg
              · exact processPairs_err_kind _ _ r e hpg
            exact ⟨e, by simp [processGames, hpg], hek⟩
        | ok r2 =>
            have hkeys : r2.map Prod.fst = r.map Prod.fst := by
              unfold processGame at hpg
              split at hpg
              · simp only [Except.ok.injEq] at hpg
                rw [← hpg]
              · exact processPairs_keys _ _ r r2 hpg
            obtain ⟨e, he, hek⟩ := ih r2
              ⟨g2, hgt, hwin, hlen, nm, hnm, by rw [hkeys]; exact hmiss⟩
            exact ⟨e, by simp [processGames, hpg, he], hek⟩

/-- The game of the C10 counterexample: a finished game listing a
single out-of-roster player. -/
def loneGame : GameResult := ⟨[⟨"Llama-3", "RED"⟩], some ⟨.str "Llama-3", false⟩, 0⟩

/-- C10 counterexample: `loneGame` is a finished game listing a player
outside the fixed roster, yet `calculate_elo_ratings` raises no
`KeyError`: with a single listed player the ordered-pair loops are
empty, the ratings dict is never indexed, and the starting ratings are
returned. -/
theorem c10_counterexample :
    (∃ nm ∈ loneGame.players.map PlayerInfo.name, nm ∉ eloRoster) ∧
    loneGame.winner.isSome = true ∧
    calculateEloRatings [loneGame] = .ok eloStart := by
  refine ⟨⟨"Llama-3", by simp [loneGame], by decide⟩, rfl, rfl⟩

/-- C10 amended: the ratings dict supports exactly the four roster
names — every input whose games name only roster players yields a map
with exactly those four keys, and any input containing a finished game
that lists an out-of-roster name among AT LEAST TWO players raises a
`KeyError` (a single-player finished game generates no ordered pairs
and raises nothing). -/
theorem c10_elo_roster :
    (∀ games : List GameResult,
      (∀ g ∈ games, ∀ nm ∈ g.players.map PlayerInfo.name, nm ∈ eloRoster) →
      ∃ r, calculateEloRatings games = .ok r ∧ r.map Prod.fst = eloRoster) ∧
    (∀ games : List GameResult,
      (∃ g ∈ games, g.winner.isSome = true ∧ 2 ≤ g.players.length ∧
        ∃ nm ∈ g.players.map PlayerInfo.name, nm ∉ eloRoster) →
      ∃ e, calculateEloRatings games = .error e ∧ e.kind = .keyError) := by
  have hkeys : eloStart.map Prod.fst = eloRoster := rfl
  constructor
  · intro games hmem
    obtain ⟨r, hr, hk⟩ := processGames_ok games eloStart (fun g hg nm hnm => by
      rw [hkeys]
      exact hmem g hg nm hnm)
    exact ⟨r, hr, by rw [hk, hkeys]⟩
  · intro games hbad
    obtain ⟨g, hg, hwin, hlen, nm, hnm, hmiss⟩ := hbad
    exact processGames_err games eloStart
      ⟨g, hg, hwin, hlen, nm, hnm, by rw [hkeys]; exact hmiss⟩

/-- A finished all-roster two-player game. -/
def rosterGame : GameResult :=
  ⟨[⟨"GPT-5", "RED"⟩, ⟨"Kimi-K2", "BLUE"⟩], some ⟨.str "GPT-5", false⟩, 0⟩

/-- A finished two-player game listing an out-of-roster name. -/
def badPairGame : GameResult :=
  ⟨[⟨"Llama-3", "RED"⟩, ⟨"GPT-5", "BLUE"⟩], some ⟨.str "Llama-3", false⟩, 0⟩

/-- C10 witness: both halves at concrete single-game inputs. -/
theorem c10_elo_roster_witness :
    (∃ r, calculateEloRatings [rosterGame] = .ok r ∧ r.map Prod.fst = eloRoster) ∧
    (∃ e, calculateEloRatings [badPairGame] = .error e ∧ e.kind = .keyError) :=
  ⟨c10_elo_roster.1 [rosterGame]
      (by
        intro g hg nm hnm
        obtain rfl := List.mem_singleton.mp hg
        simp only [rosterGame, List.map_cons, List.map_nil, List.mem_cons,
          List.not_mem_nil, or_false] at hnm
        rcases hnm with rfl | rfl <;> decide),
    c10_elo_roster.2 [badPairGame]
      ⟨badPairGame, List.mem_singleton.mpr rfl, rfl, by decide, "Llama-3",
        by simp [badPairGame], by decide⟩⟩

/-! ## C5: the two-player ELO scenario -/

/-- The C5 scenario: a single head-to-head game between two roster
players, both at the starting 1500, won outright by the first. -/
def eloTwoPlayerGame : GameResult :=
  ⟨[⟨"GPT-5", "RED"⟩, ⟨"Claude-Sonnet-4", "BLUE"⟩], some ⟨.str "GPT-5", false⟩, 0⟩

/-- The rating of player A after the first ordered-pair update:
`1500 + 32 * (1 - 1/(1 + 10 ** 0))`. -/
noncomputable def eloExprA : ℝ :=
  1500 + 32 * (1 - 1 / (1 + (10 : ℝ) ^ (((1500 : ℝ) - 1500) / 400)))

/-- The rating of player B after the second ordered-pair update, whose
expected score is computed against the ALREADY-UPDATED rating of A. -/
noncomputable def eloExprB : ℝ :=
  1500 + 32 * (0 - 1 / (1 + (10 : ℝ) ^ ((eloExprA - 1500) / 400)))

/-- Evaluating `calculate_elo_ratings` on the two-player scenario. -/
theorem eloTwoPlayer_eval :
    calculateEloRatings [eloTwoPlayerGame] =
      .ok [("GPT-5", eloExprA), ("Claude-Sonnet-4", eloExprB),
           ("Gemini-2.5-Pro", 1500), ("Kimi-K2", 1500)] := rfl

/-- The update of A is exactly `+16` (`= K/2`). -/
theorem eloExprA_eq : eloExprA = 1516 := by
  unfold eloExprA
  rw [show (((1500 : ℝ) - 1500) / 400) = 0 by norm_num, Real.rpow_zero]
  norm_num

/-- The drop of B is strictly positive but strictly smaller than 16, since
the second expected score is computed against the new 1516 rating of A. -/
theorem eloExprB_bounds : 0 < 1500 - eloExprB ∧ 1500 - eloExprB < 16 := by
  unfold eloExprB
  rw [eloExprA_eq]
  have hc1 : 1 < (10 : ℝ) ^ ((((1516 : ℝ) - 1500) / 400)) := by
    rw [Real.one_lt_rpow_iff_of_pos (by norm_num)]
    exact Or.inl ⟨by norm_num, by norm_num⟩
  have hcpos : (0 : ℝ) < (10 : ℝ) ^ ((((1516 : ℝ) - 1500) / 400)) :=
    Real.rpow_pos_of_pos (by norm_num) _
  have hden : (0 : ℝ) < 1 + (10 : ℝ) ^ ((((1516 : ℝ) - 1500) / 400)) := by linarith
  constructor
  · have : 0 < 1 / (1 + (10 : ℝ) ^ ((((1516 : ℝ) - 1500) / 400))) := by positivity
    nlinarith
  · have h32 : 32 * (1 / (1 + (10 : ℝ) ^ ((((1516 : ℝ) - 1500) / 400)))) < 16 := by
      rw [mul_one_div, div_lt_iff hden]
      nlinarith
    nlinarith

/-- C5 counterexample: in the two-player scenario the first player does
end strictly above 1500 and the second strictly below, but the updates
are NOT symmetric: `elo[A] - 1500 = 16` while `1500 - elo[B] < 16`,
because the second ordered pair reads the already-updated rating of A. -/
theorem c5_counterexample :
    ∃ r, calculateEloRatings [eloTwoPlayerGame] = .ok r ∧
      ∃ a b, r.lookup "GPT-5" = some a ∧ r.lookup "Claude-Sonnet-4" = some b ∧
        1500 < a ∧ b < 1500 ∧ ¬(a - 1500 = 1500 - b) := by
  obtain ⟨hbpos, hblt⟩ := eloExprB_bounds
  refine ⟨_, eloTwoPlayer_eval, eloExprA, eloExprB, rfl, rfl, ?_, ?_, ?_⟩
  · rw [eloExprA_eq]; norm_num
  · linarith
  · rw [eloExprA_eq]
    intro h
    rw [← h] at hblt
    norm_num at hblt

/-- C5 amended: `elo[A] = 1516 > 1500 > elo[B]` and `elo[A] - 1500 =
16`, but `0 < 1500 - elo[B] < 16`: the pairwise updates are sequential
(the expected score of B uses the updated rating of A), so the single pairing is
not exactly zero-sum. -/
theorem c5_amended :
    ∃ r, calculateEloRatings [eloTwoPlayerGame] = .ok r ∧
      ∃ a b, r.lookup "GPT-5" = some a ∧ r.lookup "Claude-Sonnet-4" = some b ∧
        a = 1516 ∧ 1500 < a ∧ b < 1500 ∧ a - 1500 = 16 ∧
        0 < 1500 - b ∧ 1500 - b < 16 := by
  obtain ⟨hbpos, hblt⟩ := eloExprB_bounds
  refine ⟨_, eloTwoPlayer_eval, eloExprA, eloExprB, rfl, rfl, eloExprA_eq, ?_, ?_, ?_, hbpos, hblt⟩
  · rw [eloExprA_eq]; norm_num
  · linarith
  · rw [eloExprA_eq]; norm_num

end CatanBench
